import Mathlib

/-!
# CityLink server — crowd-verification consensus engine: a shallow embedding

This file embeds the core of the `cityLink_server` repository in Lean 4 and
proves properties of it.

* `src/utils/photoHash.ts` — `generatePhotoHash`, `isValidBase64Image`
  (JS strings are modelled as `List Char`; the external SHA-256 digest from
  node's `crypto` is a parameter `sha256`).
* `src/utils/geoUtils.ts` — `calculateDistance` (haversine) and
  `isWithinRadius`, modelled over `ℝ` (JS `number`s idealised as reals).
* `src/controllers/dumps.controller.ts` — `reportDump`, the submission
  transaction: photo validation, fingerprint dedup, report + self-verification
  creation, nearby-report cross-verification, status transitions and
  reputation awards.  Coordinates in the store are modelled as `ℚ` and the
  geo-cluster membership test (a call into `isWithinRadius`, which is not
  computable over `ℝ`) is a boolean parameter `near`; its intended
  instantiation is proved separately against the real `isWithinRadius`.
-/

set_option maxRecDepth 16000

namespace CityLink

attribute [local semireducible] Rat.ofScientific

/-! ## Strings

JS strings are modelled as lists of characters. -/

abbrev Str := List Char

/-! ## `src/utils/photoHash.ts` -/

/-- A character matched by the regex class `\w` (`[A-Za-z0-9_]`). -/
def isWordChar (c : Char) : Bool :=
  (('a' ≤ c && c ≤ 'z') || ('A' ≤ c && c ≤ 'Z') || ('0' ≤ c && c ≤ '9') || c == '_')

/-- A JS regex line terminator, which the regex atom `.` does not match. -/
def isLineTerminator (c : Char) : Bool :=
  c == '\n' || c == '\r' || c == Char.ofNat 0x2028 || c == Char.ofNat 0x2029

/-- The string `"data:image/"` (11 characters). -/
def dataImagePrefix : Str := "data:image/".data

/-- The string `";base64,"` (8 characters). -/
def base64Marker : Str := ";base64,".data

/-- `base64Data.replace(/^data:image\/\w+;base64,/, '')`: remove a leading
data-URL preamble if present, otherwise return the string unchanged.
(The regex `\w+` is greedy; since `;` is not a `\w` character, greedy
matching coincides with `takeWhile isWordChar`.) -/
def stripDataUrlPrefix (s : Str) : Str :=
  if dataImagePrefix.isPrefixOf s then
    if !((s.drop 11).takeWhile isWordChar).isEmpty &&
        base64Marker.isPrefixOf
          ((s.drop 11).drop ((s.drop 11).takeWhile isWordChar).length) then
      (((s.drop 11).drop ((s.drop 11).takeWhile isWordChar).length)).drop 8
    else s
  else s

/-- `generatePhotoHash`: strip the data-URL preamble, then digest with
SHA-256.  The digest itself lives in node's `crypto` library, outside
the repository, so it is a parameter. -/
def generatePhotoHash (sha256 : Str → Str) (base64Data : Str) : Str :=
  sha256 (stripDataUrlPrefix base64Data)

/-- `isValidBase64Image`: a data URL must match
`/^data:image\/(\w+);base64,(.+)$/` (the payload after the marker is
non-empty and contains no line terminator, since `.` excludes them and
neither the `s` nor the `m` flag is set); any other string is accepted,
because `Buffer.from(s, 'base64')` never throws. -/
def isValidBase64Image (s : Str) : Bool :=
  if dataImagePrefix.isPrefixOf s then
    let rest := s.drop 11
    let w := rest.takeWhile isWordChar
    let tl := rest.drop w.length
    !w.isEmpty && base64Marker.isPrefixOf tl &&
      !(tl.drop 8).isEmpty && (tl.drop 8).all (fun c => !isLineTerminator c)
  else true

/-! ## `src/utils/geoUtils.ts` -/

open Real in
/-- JS `Math.atan2 y x` (ignoring signed zeros and non-finite inputs,
which never arise here). -/
noncomputable def atan2 (y x : ℝ) : ℝ :=
  if 0 < x then arctan (y / x)
  else if x < 0 then
    (if 0 ≤ y then arctan (y / x) + π else arctan (y / x) - π)
  else
    (if 0 < y then π / 2 else if y < 0 then -(π / 2) else 0)

open Real in
/-- The local `a` of `calculateDistance`:
`sin(Δφ/2)·sin(Δφ/2) + cos φ1 · cos φ2 · sin(Δλ/2)·sin(Δλ/2)` with
`φᵢ = latᵢ·π/180`, `Δφ = (lat2−lat1)·π/180`, `Δλ = (lon2−lon1)·π/180`. -/
noncomputable def haversineA (lat1 lon1 lat2 lon2 : ℝ) : ℝ :=
  sin ((lat2 - lat1) * π / 180 / 2) * sin ((lat2 - lat1) * π / 180 / 2) +
    cos (lat1 * π / 180) * cos (lat2 * π / 180) *
      (sin ((lon2 - lon1) * π / 180 / 2) * sin ((lon2 - lon1) * π / 180 / 2))

open Real in
/-- `calculateDistance`: great-circle distance in meters by the haversine
formula on a sphere of radius 6 371 000 m
(`R * c` with `c = 2·atan2(√a, √(1−a))`). -/
noncomputable def calculateDistance (lat1 lon1 lat2 lon2 : ℝ) : ℝ :=
  6371e3 * (2 * atan2 (sqrt (haversineA lat1 lon1 lat2 lon2))
    (sqrt (1 - haversineA lat1 lon1 lat2 lon2)))

/-- `isWithinRadius`: the boolean `calculateDistance(..) <= radiusMeters`,
modelled as a proposition over `ℝ`. -/
def isWithinRadius (lat1 lon1 lat2 lon2 radiusMeters : ℝ) : Prop :=
  calculateDistance lat1 lon1 lat2 lon2 ≤ radiusMeters

/-- `GEO_CLUSTER_RADIUS`: configured cluster radius in meters
(environment variable `GEO_CLUSTER_RADIUS`, default `'100'`). -/
def GEO_CLUSTER_RADIUS : ℝ := 100

/-- `REPUTATION_PER_VERIFIED`: points per verified report (environment
variable `REPUTATION_PER_VERIFIED_DUMP`, default `'10'`). -/
def REPUTATION_PER_VERIFIED : ℕ := 10

/-! ## Data model (`prisma` tables touched by `reportDump`) -/

abbrev UserId := ℕ
abbrev ReportId := ℕ

/-- `DumpStatus`: the two status values the consensus engine reads and
writes (`status: { in: ['UNVERIFIED', 'VERIFIED'] }`). -/
inductive DumpStatus
  | UNVERIFIED
  | VERIFIED
deriving DecidableEq, Repr

/-- `DumpSize` (`z.enum(['SMALL', 'MEDIUM', 'LARGE'])`). -/
inductive DumpSize
  | SMALL
  | MEDIUM
  | LARGE
deriving DecidableEq, Repr

/-- A `dumpReport` row (the fields `reportDump` reads or writes; JS number
coordinates are modelled as `ℚ`). -/
structure DumpReport where
  id : ReportId
  reporterId : UserId
  latitude : ℚ
  longitude : ℚ
  photoHash : Str
  size : DumpSize
  status : DumpStatus
deriving DecidableEq, Repr

/-- A `dumpVerification` row: the (report, verifier) pair. -/
structure DumpVerification where
  dumpReportId : ReportId
  verifierId : UserId
deriving DecidableEq, Repr

/-- A `reputationScore` row. -/
structure ReputationScore where
  userId : UserId
  score : ℕ
  verifiedReports : ℕ
deriving DecidableEq, Repr

/-- A `photoHash` row: the fingerprint registry. -/
structure PhotoHashRow where
  hash : Str
  uploadedBy : UserId
deriving DecidableEq, Repr

/-- The shared store.  `awards` is a ghost ledger instrumenting the
`reputationScore.upsert` calls: one entry `(reportId, verifierId)` is
appended for each upsert performed in the award loop of the report
`reportId` whose threshold crossing triggered it.  `nextId` models the
id generator for `dumpReport.create`. -/
structure Store where
  photoHashes : List PhotoHashRow
  reports : List DumpReport
  verifications : List DumpVerification
  reputations : List ReputationScore
  awards : List (ReportId × UserId)
  nextId : ReportId
deriving DecidableEq, Repr

/-- The store of a fresh database. -/
def emptyStore : Store := ⟨[], [], [], [], [], 0⟩

/-- Failure modes of one `reportDump` call, as surfaced to the caller:
zod parse failure (400), invalid photo format (400), reused photo (400),
and a store error aborting the transaction (caught and surfaced as 500). -/
inductive SubmitError
  | ValidationFailed
  | InvalidPhoto
  | DuplicatePhoto
  | UniqueViolation
deriving DecidableEq, Repr

/-- The request body of one submission (the `description` field is
optional and never read by the algorithm, so it is omitted). -/
structure SubmitInput where
  reporterId : UserId
  latitude : ℚ
  longitude : ℚ
  photoBase64 : Str
  size : DumpSize
deriving DecidableEq, Repr

/-- What the 201 response exposes: the report id, `verificationCount`
(the re-fetched row count) and `isVerified` (`status === 'VERIFIED'`). -/
structure SubmitResult where
  reportId : ReportId
  verificationCount : ℕ
  isVerified : Bool
deriving DecidableEq, Repr

/-! ## Store primitives -/

/-- `dumpVerification.count({ where: { dumpReportId: rid } })`. -/
def countVerifications (rid : ReportId) (vs : List DumpVerification) : ℕ :=
  (vs.filter (fun v => v.dumpReportId == rid)).length

/-- `dumpVerification.findMany({ where: { dumpReportId: rid }, select: { verifierId } })`. -/
def verifiersOf (rid : ReportId) (vs : List DumpVerification) : List UserId :=
  (vs.filter (fun v => v.dumpReportId == rid)).map (·.verifierId)

/-- Modelled from the spec: the Prisma schema file is not under `src/`;
§6 requires "append-only create for Verification with a uniqueness
constraint on (reportId, verifierId)", so `dumpVerification.create` on an
already-present pair fails (Prisma `P2002`), aborting the enclosing
transaction. -/
def createVerification (v : DumpVerification) (vs : List DumpVerification) :
    Except SubmitError (List DumpVerification) :=
  if v ∈ vs then .error .UniqueViolation else .ok (vs ++ [v])

/-- `reputationScore.upsert`: create `{score: REPUTATION_PER_VERIFIED,
verifiedReports: 1}` or increment both fields. -/
def upsertReputation (u : UserId) (reps : List ReputationScore) : List ReputationScore :=
  if reps.any (fun r => r.userId == u) then
    reps.map (fun r =>
      if r.userId == u then
        { r with score := r.score + REPUTATION_PER_VERIFIED,
                 verifiedReports := r.verifiedReports + 1 }
      else r)
  else reps ++ [⟨u, REPUTATION_PER_VERIFIED, 1⟩]

/-- `dumpReport.update({ where: { id: rid }, data: { status } })`. -/
def setStatus (rid : ReportId) (st : DumpStatus) (rs : List DumpReport) : List DumpReport :=
  rs.map (fun r => if r.id == rid then { r with status := st } else r)

/-! ## The submission transaction -/

/-- The mutable tables inside one `prisma.$transaction`. -/
structure TxState where
  reports : List DumpReport
  verifications : List DumpVerification
  reputations : List ReputationScore
  awards : List (ReportId × UserId)
deriving DecidableEq, Repr

/-- The award loop run when a report crosses the threshold: one
`reputationScore.upsert` per verifier, instrumented in the ghost ledger. -/
def awardVerifiers (rid : ReportId) (users : List UserId) (ts : TxState) : TxState :=
  users.foldl (fun acc u =>
    { acc with reputations := upsertReputation u acc.reputations,
               awards := acc.awards ++ [(rid, u)] }) ts

/-- One nearby report as returned by the `findMany` with
`include: { verifications: true }`: the row itself plus the snapshot of
its verification rows at query time. -/
structure NearbySnapshot where
  report : DumpReport
  verifications : List DumpVerification
deriving DecidableEq, Repr

/-- The threshold block the controller repeats verbatim for a nearby
report (lines 140–164) and for the current report (lines 186–211): mark
the report `VERIFIED`, re-fetch its verifiers, and run one
`reputationScore.upsert` per verifier. -/
def flipAndAward (rid : ReportId) (ts : TxState) : TxState :=
  let ts' : TxState := { ts with reports := setStatus rid .VERIFIED ts.reports }
  awardVerifiers rid (verifiersOf rid ts'.verifications) ts'

/-- The body of the first loop, for one nearby report: skip if the
submitter already appears in the snapshot's verifier list; otherwise
create the verification, re-count, and if the count reaches 2 while the
snapshot status is `UNVERIFIED`, flip the report to `VERIFIED` and award
every currently recorded verifier. -/
def processNearby (reporterId : UserId) (n : NearbySnapshot) (ts : TxState) :
    Except SubmitError TxState :=
  if n.verifications.any (fun v => v.verifierId == reporterId) then .ok ts
  else do
    let vs ← createVerification ⟨n.report.id, reporterId⟩ ts.verifications
    let ts1 : TxState := { ts with verifications := vs }
    let cnt := countVerifications n.report.id ts1.verifications
    if 2 ≤ cnt ∧ n.report.status = .UNVERIFIED then
      pure (flipAndAward n.report.id ts1)
    else pure ts1

/-- The first loop over the clustered nearby reports. -/
def processNearbyList (reporterId : UserId) (ns : List NearbySnapshot) (ts : TxState) :
    Except SubmitError TxState :=
  match ns with
  | [] => .ok ts
  | n :: rest => do
    let ts' ← processNearby reporterId n ts
    processNearbyList reporterId rest ts'

/-- The second loop: unconditionally create the symmetric back-link
`Verification(new report, nearby report's author)` for every clustered
report — the code performs no duplicate check here. -/
def createBackLinks (rid : ReportId) (ns : List NearbySnapshot)
    (vs : List DumpVerification) : Except SubmitError (List DumpVerification) :=
  match ns with
  | [] => .ok vs
  | n :: rest => do
    let vs' ← createVerification ⟨rid, n.report.reporterId⟩ vs
    createBackLinks rid rest vs'

/-- The zod schema `reportDumpSchema`: latitude in [-90, 90], longitude in
[-180, 180], photo string of length ≥ 100 (size is enum-typed already). -/
def validInput (inp : SubmitInput) : Bool :=
  decide (-90 ≤ inp.latitude) && decide (inp.latitude ≤ 90) &&
  decide (-180 ≤ inp.longitude) && decide (inp.longitude ≤ 180) &&
  decide (100 ≤ inp.photoBase64.length)

/-- The `findMany` of nearby candidates (other users' reports with
status `UNVERIFIED` or `VERIFIED`) filtered to the geo-cluster radius,
each with the snapshot of its verification rows
(`include: { verifications: true }`). -/
def clusteredOf (near : ℚ → ℚ → ℚ → ℚ → Bool) (inp : SubmitInput)
    (rid : ReportId) (ts1 : TxState) : List NearbySnapshot :=
  ((ts1.reports.filter (fun r =>
      r.id != rid && r.reporterId != inp.reporterId &&
      (r.status == DumpStatus.UNVERIFIED || r.status == DumpStatus.VERIFIED))).filter
    (fun r => near inp.latitude inp.longitude r.latitude r.longitude)).map
    (fun r => NearbySnapshot.mk r (ts1.verifications.filter
      (fun v => v.dumpReportId == r.id)))

/-- The cluster part of the transaction (`if (clusteredReports.length > 0)`):
run the first loop over the nearby reports, create the back-links, and run
the final threshold check on the current report `rid`. -/
def txCluster (near : ℚ → ℚ → ℚ → ℚ → Bool) (inp : SubmitInput)
    (rid : ReportId) (ts1 : TxState) : Except SubmitError TxState :=
  if (clusteredOf near inp rid ts1).length > 0 then
    match processNearbyList inp.reporterId (clusteredOf near inp rid ts1) ts1 with
    | .error e => .error e
    | .ok ts2 =>
      match createBackLinks rid (clusteredOf near inp rid ts1) ts2.verifications with
      | .error e => .error e
      | .ok vs3 =>
        if 2 ≤ countVerifications rid vs3 then
          .ok (flipAndAward rid { ts2 with verifications := vs3 })
        else .ok { ts2 with verifications := vs3 }
  else .ok ts1

/-- Body of `prisma.$transaction`, after the `photoHash` row: create the
report with status `UNVERIFIED` and the reporter's self-verification,
then run the cluster cascade. -/
def txBody (near : ℚ → ℚ → ℚ → ℚ → Bool) (inp : SubmitInput)
    (photoHash : Str) (s : Store) : Except SubmitError TxState :=
  match createVerification ⟨s.nextId, inp.reporterId⟩ s.verifications with
  | .error e => .error e
  | .ok vs1 =>
    txCluster near inp s.nextId
      ⟨s.reports ++ [⟨s.nextId, inp.reporterId, inp.latitude, inp.longitude,
        photoHash, inp.size, .UNVERIFIED⟩], vs1, s.reputations, s.awards⟩

/-- `reportDump`: one submission against store `s`.  `near la lo la' lo'`
stands for the call `isWithinRadius(la, lo, la', lo', GEO_CLUSTER_RADIUS)`;
`sha256` is the external digest.  On success, returns the response data
and the committed store; on failure, nothing is persisted (the
pre-transaction checks return early and a store error rolls the
transaction back). -/
def reportDump (near : ℚ → ℚ → ℚ → ℚ → Bool) (sha256 : Str → Str)
    (inp : SubmitInput) (s : Store) : Except SubmitError (SubmitResult × Store) :=
  if !validInput inp then .error .ValidationFailed
  else if !isValidBase64Image inp.photoBase64 then .error .InvalidPhoto
  else
    let photoHash := generatePhotoHash sha256 inp.photoBase64
    if s.photoHashes.any (fun row => row.hash == photoHash) then .error .DuplicatePhoto
    else
      match txBody near inp photoHash s with
      | .error e => .error e
      | .ok tsFinal =>
        -- commit (the photoHash row was created at the start of the transaction)
        let s' : Store :=
          { photoHashes := s.photoHashes ++ [⟨photoHash, inp.reporterId⟩],
            reports := tsFinal.reports,
            verifications := tsFinal.verifications,
            reputations := tsFinal.reputations,
            awards := tsFinal.awards,
            nextId := s.nextId + 1 }
        -- re-fetch for the response
        let finalCnt := countVerifications s.nextId s'.verifications
        let finalStatus := (s'.reports.find? (fun r => r.id == s.nextId)).map (·.status)
        .ok (⟨s.nextId, finalCnt, finalStatus == some DumpStatus.VERIFIED⟩, s')

/-- The request layer around one submission: a failed submission leaves
the store unchanged. -/
def submitStep (near : ℚ → ℚ → ℚ → ℚ → Bool) (sha256 : Str → Str)
    (s : Store) (inp : SubmitInput) : Store :=
  match reportDump near sha256 inp s with
  | .ok (_, s') => s'
  | .error _ => s

/-- A sequence of submissions starting from the fresh database. -/
def runSubmits (near : ℚ → ℚ → ℚ → ℚ → Bool) (sha256 : Str → Str)
    (inps : List SubmitInput) : Store :=
  inps.foldl (submitStep near sha256) emptyStore

/-! ## Derived observations -/

/-- The reputation score the `GET /reputation` endpoint reports for a
user: the row's `score`, or 0 when no row exists. -/
def scoreOf (u : UserId) (s : Store) : ℕ :=
  (((s.reputations.find? (fun r => r.userId == u)).map (·.score)).getD 0)

/-- The award-ledger entries for one report. -/
def awardsFor (rid : ReportId) (s : Store) : List (ReportId × UserId) :=
  s.awards.filter (fun p => p.1 == rid)

/-- The award-ledger entries credited to one user. -/
def awardsTo (u : UserId) (aw : List (ReportId × UserId)) : List (ReportId × UserId) :=
  aw.filter (fun p => p.2 == u)

/-! ## The store invariant

`Inv s` is the inductive invariant maintained by `submitStep` from
`emptyStore`. -/

/-- The invariant over the whole store. -/
structure Inv (s : Store) : Prop where
  /-- No duplicate (report, verifier) pair. -/
  verNodup : s.verifications.Nodup
  /-- Report ids are unique. -/
  idsNodup : (s.reports.map (·.id)).Nodup
  /-- Report ids are below the id generator. -/
  idsLt : ∀ r ∈ s.reports, r.id < s.nextId
  /-- Verification rows reference existing reports. -/
  verHasReport : ∀ v ∈ s.verifications, ∃ r ∈ s.reports, r.id = v.dumpReportId
  /-- Every report carries its reporter's self-verification. -/
  selfVer : ∀ r ∈ s.reports, (⟨r.id, r.reporterId⟩ : DumpVerification) ∈ s.verifications
  /-- A report is VERIFIED exactly when it has at least 2 verification rows. -/
  statusCount : ∀ r ∈ s.reports,
    (r.status = .VERIFIED ↔ 2 ≤ countVerifications r.id s.verifications)
  /-- Each (report, verifier) pair is awarded at most once. -/
  awardsNodup : s.awards.Nodup
  /-- Awards only exist for verified reports. -/
  awardVerified : ∀ p ∈ s.awards, ∃ r ∈ s.reports, r.id = p.1 ∧ r.status = .VERIFIED
  /-- Reputation rows are keyed by distinct users. -/
  repNodup : (s.reputations.map (·.userId)).Nodup
  /-- A reputation row's fields tally the user's award-ledger entries. -/
  scoreEq : ∀ rep ∈ s.reputations,
    rep.score = REPUTATION_PER_VERIFIED * (awardsTo rep.userId s.awards).length ∧
    rep.verifiedReports = (awardsTo rep.userId s.awards).length
  /-- Every awarded user has a reputation row. -/
  awardHasRep : ∀ p ∈ s.awards, ∃ rep ∈ s.reputations, rep.userId = p.2

/-- The invariant over the tables inside one transaction. -/
structure TxInv (ts : TxState) : Prop where
  verNodup : ts.verifications.Nodup
  idsNodup : (ts.reports.map (·.id)).Nodup
  verHasReport : ∀ v ∈ ts.verifications, ∃ r ∈ ts.reports, r.id = v.dumpReportId
  selfVer : ∀ r ∈ ts.reports, (⟨r.id, r.reporterId⟩ : DumpVerification) ∈ ts.verifications
  statusCount : ∀ r ∈ ts.reports,
    (r.status = .VERIFIED ↔ 2 ≤ countVerifications r.id ts.verifications)
  awardsNodup : ts.awards.Nodup
  awardVerified : ∀ p ∈ ts.awards, ∃ r ∈ ts.reports, r.id = p.1 ∧ r.status = .VERIFIED
  repNodup : (ts.reputations.map (·.userId)).Nodup
  scoreEq : ∀ rep ∈ ts.reputations,
    rep.score = REPUTATION_PER_VERIFIED * (awardsTo rep.userId ts.awards).length ∧
    rep.verifiedReports = (awardsTo rep.userId ts.awards).length
  awardHasRep : ∀ p ∈ ts.awards, ∃ rep ∈ ts.reputations, rep.userId = p.2

/-- Accuracy of one nearby-report snapshot with respect to the current
transaction state: the row is live, its verification snapshot is current,
and it passed the `findMany` filters (other author, not the new report). -/
def SnapOK (reporterId : UserId) (rid : ReportId) (ts : TxState) (n : NearbySnapshot) : Prop :=
  n.report ∈ ts.reports ∧
  ts.verifications.filter (fun v => v.dumpReportId == n.report.id) = n.verifications ∧
  n.report.reporterId ≠ reporterId ∧ n.report.id ≠ rid

/-- The precondition of the threshold block for report `rid`: the
transaction invariant, except that `rid`'s verification count has just
reached 2 while its row is still `UNVERIFIED`. -/
structure PreFlip (rid : ReportId) (ts : TxState) : Prop where
  verNodup : ts.verifications.Nodup
  idsNodup : (ts.reports.map (·.id)).Nodup
  verHasReport : ∀ v ∈ ts.verifications, ∃ r ∈ ts.reports, r.id = v.dumpReportId
  selfVer : ∀ r ∈ ts.reports, (⟨r.id, r.reporterId⟩ : DumpVerification) ∈ ts.verifications
  statusCountOther : ∀ r ∈ ts.reports, r.id ≠ rid →
    (r.status = .VERIFIED ↔ 2 ≤ countVerifications r.id ts.verifications)
  ridUnv : ∀ r ∈ ts.reports, r.id = rid → r.status = .UNVERIFIED
  ridMem : ∃ r ∈ ts.reports, r.id = rid
  ridCnt : 2 ≤ countVerifications rid ts.verifications
  awardsNodup : ts.awards.Nodup
  awardVerified : ∀ p ∈ ts.awards, ∃ r ∈ ts.reports, r.id = p.1 ∧ r.status = .VERIFIED
  repNodup : (ts.reputations.map (·.userId)).Nodup
  scoreEq : ∀ rep ∈ ts.reputations,
    rep.score = REPUTATION_PER_VERIFIED * (awardsTo rep.userId ts.awards).length ∧
    rep.verifiedReports = (awardsTo rep.userId ts.awards).length
  awardHasRep : ∀ p ∈ ts.awards, ∃ rep ∈ ts.reputations, rep.userId = p.2

/-- What one pass of `processNearby` guarantees (relating input state
`ts` to output state `ts'`). -/
structure StepOut (reporterId : UserId) (n : NearbySnapshot) (ts ts' : TxState) : Prop where
  inv : TxInv ts'
  verExt : ∃ ex, ts'.verifications = ts.verifications ++ ex ∧
    ∀ v ∈ ex, v.dumpReportId = n.report.id ∧ v.verifierId = reporterId
  reportsEq : ts'.reports = ts.reports ∨
    ts'.reports = setStatus n.report.id .VERIFIED ts.reports
  awardsExt : ∃ aex, ts'.awards = ts.awards ++ aex ∧
    ∀ p ∈ aex, p.1 = n.report.id ∧ n.report.status = .UNVERIFIED
  rowMem : (⟨n.report.id, reporterId⟩ : DumpVerification) ∈ ts'.verifications

/-- What the whole first loop guarantees. -/
structure LoopOut (reporterId : UserId) (ns : List NearbySnapshot) (ts ts' : TxState) : Prop where
  inv : TxInv ts'
  verExt : ∃ ex, ts'.verifications = ts.verifications ++ ex ∧
    ∀ v ∈ ex, (∃ n ∈ ns, v.dumpReportId = n.report.id) ∧ v.verifierId = reporterId
  idsEq : ts'.reports.map (·.id) = ts.reports.map (·.id)
  keepUntouched : ∀ r ∈ ts.reports, (∀ n ∈ ns, r.id ≠ n.report.id) → r ∈ ts'.reports
  monotoneStatus : ∀ r ∈ ts.reports, ∃ r' ∈ ts'.reports, r'.id = r.id ∧
    (r' = r ∨ r' = { r with status := DumpStatus.VERIFIED })
  awardsExt : ∃ aex, ts'.awards = ts.awards ++ aex ∧
    ∀ p ∈ aex, ∃ n ∈ ns, p.1 = n.report.id ∧ n.report.status = .UNVERIFIED
  rowMem : ∀ n ∈ ns, (⟨n.report.id, reporterId⟩ : DumpVerification) ∈ ts'.verifications

/-! ## Concrete scenario data

Concrete inputs for witness traces.  `digestId` stands in for the SHA-256
digest in concrete runs (any function works for these traces, which never
need collision resistance); `nearAll` stands in for the geo-cluster test
in traces where every pair of submitted coordinates is within the
configured radius (for the two-report scenario this is justified by the
haversine bound proved about `isWithinRadius`). -/

/-- Stand-in digest for concrete traces. -/
def digestId : Str → Str := id

/-- Stand-in cluster test for traces whose coordinates all lie within the
radius. -/
def nearAll : ℚ → ℚ → ℚ → ℚ → Bool := fun _ _ _ _ => true

/-- A 100-character photo payload (the zod minimum) of copies of `c`. -/
def photoOf (c : Char) : Str := List.replicate 100 c

/-- Scenario: user A's report at (3.8480, 11.5021). -/
def subA : SubmitInput := ⟨1, 3.8480, 11.5021, photoOf 'a', .SMALL⟩

/-- Scenario: user B's report at (3.8481, 11.5022), ≈15 m from A's. -/
def subB : SubmitInput := ⟨2, 3.8481, 11.5022, photoOf 'b', .SMALL⟩

/-- Scenario: user C's report at A's location (a third corroborator). -/
def subC : SubmitInput := ⟨3, 3.8480, 11.5021, photoOf 'c', .SMALL⟩

/-- Duplicate-back-link scenario: user B's first report. -/
def subB1 : SubmitInput := ⟨2, 3.8480, 11.5021, photoOf 'b', .SMALL⟩

/-- Duplicate-back-link scenario: user B's second report at the same
spot, with a fresh photo. -/
def subB2 : SubmitInput := ⟨2, 3.8480, 11.5021, photoOf 'c', .SMALL⟩

/-- Duplicate-back-link scenario: user C's report next to both of B's. -/
def subC2 : SubmitInput := ⟨3, 3.8480, 11.5021, photoOf 'd', .SMALL⟩

/-- A's report row as created in the two-report scenario. -/
def reportA : DumpReport :=
  ⟨0, 1, 3.8480, 11.5021, photoOf 'a', DumpSize.SMALL, DumpStatus.UNVERIFIED⟩

/-- B's report row as created in the two-report scenario. -/
def reportB : DumpReport :=
  ⟨1, 2, 3.8481, 11.5022, photoOf 'b', DumpSize.SMALL, DumpStatus.UNVERIFIED⟩

/-- The committed store after A's submission in the two-report scenario. -/
def storeAfterA : Store :=
  ⟨[⟨photoOf 'a', 1⟩], [reportA], [⟨0, 1⟩], [], [], 1⟩

/-- B's transaction state right after its self-verification. -/
def txAfterSelfB : TxState := ⟨[reportA, reportB], [⟨0, 1⟩, ⟨1, 2⟩], [], []⟩

/-- The final transaction state of B's submission: both reports flipped,
four verification rows, both users awarded twice. -/
def txFinalB : TxState :=
  ⟨[{ reportA with status := DumpStatus.VERIFIED },
    { reportB with status := DumpStatus.VERIFIED }],
   [⟨0, 1⟩, ⟨1, 2⟩, ⟨0, 2⟩, ⟨1, 1⟩],
   [⟨1, 20, 2⟩, ⟨2, 20, 2⟩],
   [(0, 1), (0, 2), (1, 2), (1, 1)]⟩

/-- The committed store after the two-report scenario. -/
def storeAfterB : Store :=
  ⟨[⟨photoOf 'a', 1⟩, ⟨photoOf 'b', 2⟩], txFinalB.reports, txFinalB.verifications,
   txFinalB.reputations, txFinalB.awards, 2⟩

/-! ## Basic lemmas about the store primitives -/

lemma countVerifications_append (rid : ReportId) (vs ex : List DumpVerification) :
    countVerifications rid (vs ++ ex) =
      countVerifications rid vs + countVerifications rid ex := by
  simp [countVerifications, List.filter_append]

lemma countVerifications_eq_zero (rid : ReportId) (ex : List DumpVerification)
    (h : ∀ v ∈ ex, v.dumpReportId ≠ rid) : countVerifications rid ex = 0 := by
  simp only [countVerifications, List.length_eq_zero, List.filter_eq_nil_iff]
  intro v hv
  simpa using h v hv

lemma countVerifications_singleton_self (rid : ReportId) (u : UserId) :
    countVerifications rid [⟨rid, u⟩] = 1 := by
  simp [countVerifications]

lemma mem_verifiersOf {rid : ReportId} {u : UserId} {vs : List DumpVerification} :
    u ∈ verifiersOf rid vs ↔ (⟨rid, u⟩ : DumpVerification) ∈ vs := by
  constructor
  · rintro hu
    obtain ⟨v, hv, hvu⟩ := List.mem_map.mp hu
    obtain ⟨hv1, hv2⟩ := List.mem_filter.mp hv
    have : v.dumpReportId = rid := by simpa using hv2
    cases v
    simp_all
  · intro h
    exact List.mem_map.mpr ⟨⟨rid, u⟩, List.mem_filter.mpr ⟨h, by simp⟩, rfl⟩

lemma verifiersOf_nodup (rid : ReportId) (vs : List DumpVerification)
    (h : vs.Nodup) : (verifiersOf rid vs).Nodup := by
  refine List.Nodup.map_on ?_ (h.filter _)
  intro x hx y hy hxy
  have hx' : x.dumpReportId = rid := by simpa using (List.mem_filter.mp hx).2
  have hy' : y.dumpReportId = rid := by simpa using (List.mem_filter.mp hy).2
  cases x; cases y; simp_all

lemma setStatus_map_id (rid : ReportId) (st : DumpStatus) (rs : List DumpReport) :
    (setStatus rid st rs).map (·.id) = rs.map (·.id) := by
  simp only [setStatus, List.map_map]
  refine List.map_congr_left ?_
  intro r _
  by_cases h : r.id = rid <;> simp [h]

lemma mem_setStatus_of_ne {r : DumpReport} {rs : List DumpReport}
    (h : r ∈ rs) (rid : ReportId) (st : DumpStatus) (hne : r.id ≠ rid) :
    r ∈ setStatus rid st rs := by
  unfold setStatus
  refine List.mem_map.mpr ⟨r, h, ?_⟩
  simp [hne]

lemma mem_setStatus_self {r : DumpReport} {rs : List DumpReport}
    (h : r ∈ rs) (st : DumpStatus) :
    ({ r with status := st } : DumpReport) ∈ setStatus r.id st rs := by
  unfold setStatus
  exact List.mem_map.mpr ⟨r, h, by simp⟩

lemma mem_setStatus_iff {r' : DumpReport} {rs : List DumpReport}
    {rid : ReportId} {st : DumpStatus} :
    r' ∈ setStatus rid st rs ↔
      ∃ r ∈ rs, r' = if r.id = rid then { r with status := st } else r := by
  unfold setStatus
  rw [List.mem_map]
  constructor
  · rintro ⟨r, hr, hrr⟩
    refine ⟨r, hr, ?_⟩
    by_cases hid : r.id = rid <;> simp [← hrr, hid]
  · rintro ⟨r, hr, hrr⟩
    refine ⟨r, hr, ?_⟩
    by_cases hid : r.id = rid <;> simp [hrr, hid]

lemma createVerification_ok {v : DumpVerification} {vs vs' : List DumpVerification}
    (h : createVerification v vs = .ok vs') : v ∉ vs ∧ vs' = vs ++ [v] := by
  by_cases hm : v ∈ vs
  · simp [createVerification, hm] at h
  · simp only [createVerification, if_neg hm, Except.ok.injEq] at h
    exact ⟨hm, h.symm⟩

lemma createVerification_ok_of_not_mem {v : DumpVerification} {vs : List DumpVerification}
    (h : v ∉ vs) : createVerification v vs = .ok (vs ++ [v]) := by
  simp [createVerification, h]

lemma createVerification_error_of_mem {v : DumpVerification} {vs : List DumpVerification}
    (h : v ∈ vs) : createVerification v vs = .error .UniqueViolation := by
  simp [createVerification, h]

lemma nodup_append_singleton {v : DumpVerification} {vs : List DumpVerification}
    (h : vs.Nodup) (hm : v ∉ vs) : (vs ++ [v]).Nodup := by
  simp [List.nodup_append, h, hm]

lemma upsert_of_mem {u : UserId} {reps : List ReputationScore}
    (h : u ∈ reps.map (·.userId)) :
    upsertReputation u reps = reps.map (fun r =>
      if r.userId == u then
        { r with score := r.score + REPUTATION_PER_VERIFIED,
                 verifiedReports := r.verifiedReports + 1 }
      else r) := by
  obtain ⟨rep, hrep, hu⟩ := List.mem_map.mp h
  have : reps.any (fun r => r.userId == u) = true :=
    List.any_eq_true.mpr ⟨rep, hrep, by simp [hu]⟩
  simp [upsertReputation, this]

lemma upsert_of_not_mem {u : UserId} {reps : List ReputationScore}
    (h : u ∉ reps.map (·.userId)) :
    upsertReputation u reps = reps ++ [⟨u, REPUTATION_PER_VERIFIED, 1⟩] := by
  have hany : reps.any (fun r => r.userId == u) = false := by
    by_contra hc
    have ht : reps.any (fun r => r.userId == u) = true := by
      revert hc; cases reps.any (fun r => r.userId == u) <;> simp
    obtain ⟨rep, hrep, he⟩ := List.any_eq_true.mp ht
    exact h (List.mem_map.mpr ⟨rep, hrep, by simpa using he⟩)
  simp [upsertReputation, hany]

lemma upsert_userIds_of_mem {u : UserId} {reps : List ReputationScore}
    (h : u ∈ reps.map (·.userId)) :
    (upsertReputation u reps).map (·.userId) = reps.map (·.userId) := by
  rw [upsert_of_mem h, List.map_map]
  refine List.map_congr_left (fun r _ => ?_)
  by_cases hr : r.userId = u <;> simp [hr]

lemma upsert_userIds_cases (u : UserId) (reps : List ReputationScore) :
    (upsertReputation u reps).map (·.userId) = reps.map (·.userId) ∨
    (upsertReputation u reps).map (·.userId) = reps.map (·.userId) ++ [u] := by
  by_cases h : u ∈ reps.map (·.userId)
  · exact .inl (upsert_userIds_of_mem h)
  · right
    rw [upsert_of_not_mem h]
    simp

lemma awardsTo_append_same (u : UserId) (aw : List (ReportId × UserId)) (rid : ReportId) :
    awardsTo u (aw ++ [(rid, u)]) = awardsTo u aw ++ [(rid, u)] := by
  simp [awardsTo, List.filter_append]

lemma awardsTo_append_other {u w : UserId} (h : u ≠ w) (aw : List (ReportId × UserId))
    (rid : ReportId) : awardsTo w (aw ++ [(rid, u)]) = awardsTo w aw := by
  simp [awardsTo, List.filter_append, h]

lemma awardsTo_eq_nil {u : UserId} {aw : List (ReportId × UserId)}
    (h : ∀ p ∈ aw, p.2 ≠ u) : awardsTo u aw = [] := by
  simp only [awardsTo, List.filter_eq_nil_iff]
  intro p hp
  simpa using h p hp

/-- `Nodup` append for the ledger type. -/
lemma nodup_append_singleton' {p : ReportId × UserId} {aw : List (ReportId × UserId)}
    (h : aw.Nodup) (hm : p ∉ aw) : (aw ++ [p]).Nodup := by
  simp [List.nodup_append, h, hm]

lemma awardVerifiers_cons (rid : ReportId) (u : UserId) (us : List UserId) (ts : TxState) :
    awardVerifiers rid (u :: us) ts =
      awardVerifiers rid us
        { ts with reputations := upsertReputation u ts.reputations,
                  awards := ts.awards ++ [(rid, u)] } := rfl

lemma awardVerifiers_reports (rid : ReportId) (us : List UserId) (ts : TxState) :
    (awardVerifiers rid us ts).reports = ts.reports := by
  induction us generalizing ts with
  | nil => rfl
  | cons u us ih => rw [awardVerifiers_cons]; exact ih _

lemma awardVerifiers_verifications (rid : ReportId) (us : List UserId) (ts : TxState) :
    (awardVerifiers rid us ts).verifications = ts.verifications := by
  induction us generalizing ts with
  | nil => rfl
  | cons u us ih => rw [awardVerifiers_cons]; exact ih _

lemma awardVerifiers_awards (rid : ReportId) (us : List UserId) (ts : TxState) :
    (awardVerifiers rid us ts).awards = ts.awards ++ us.map (fun u => (rid, u)) := by
  induction us generalizing ts with
  | nil => simp [awardVerifiers]
  | cons u us ih => rw [awardVerifiers_cons, ih]; simp

/-- Running the award loop preserves the reputation bookkeeping: row
keys stay unique, each row's fields tally the user's ledger entries,
awarded users keep a row, and the ledger gains no duplicate, provided the
batch is duplicate-free and none of its pairs was ever awarded before. -/
lemma awardVerifiers_repInv (rid : ReportId) (us : List UserId) (ts : TxState)
    (hus : us.Nodup)
    (hfresh : ∀ u ∈ us, (rid, u) ∉ ts.awards)
    (hrepN : (ts.reputations.map (·.userId)).Nodup)
    (hscore : ∀ rep ∈ ts.reputations,
      rep.score = REPUTATION_PER_VERIFIED * (awardsTo rep.userId ts.awards).length ∧
      rep.verifiedReports = (awardsTo rep.userId ts.awards).length)
    (hcov : ∀ p ∈ ts.awards, ∃ rep ∈ ts.reputations, rep.userId = p.2)
    (hawN : ts.awards.Nodup) :
    ((awardVerifiers rid us ts).reputations.map (·.userId)).Nodup ∧
    (∀ rep ∈ (awardVerifiers rid us ts).reputations,
      rep.score = REPUTATION_PER_VERIFIED *
        (awardsTo rep.userId (awardVerifiers rid us ts).awards).length ∧
      rep.verifiedReports =
        (awardsTo rep.userId (awardVerifiers rid us ts).awards).length) ∧
    (∀ p ∈ (awardVerifiers rid us ts).awards,
      ∃ rep ∈ (awardVerifiers rid us ts).reputations, rep.userId = p.2) ∧
    (awardVerifiers rid us ts).awards.Nodup := by
  induction us generalizing ts with
  | nil => exact ⟨hrepN, hscore, hcov, hawN⟩
  | cons u rest ih =>
    rw [awardVerifiers_cons]
    obtain ⟨huu, hrest⟩ := List.nodup_cons.mp hus
    refine ih _ hrest ?_ ?_ ?_ ?_ ?_
    · -- freshness of the remaining batch
      intro u' hu' hmem
      rcases List.mem_append.mp hmem with hold | hnew
      · exact hfresh u' (List.mem_cons_of_mem _ hu') hold
      · have : u' = u := by simpa using (List.mem_singleton.mp hnew)
        exact huu (this ▸ hu')
    · -- key uniqueness
      rcases upsert_userIds_cases u ts.reputations with hsame | happ
      · simpa [hsame] using hrepN
      · have hnot : u ∉ ts.reputations.map (·.userId) := by
          intro hmem
          rw [upsert_userIds_of_mem hmem] at happ
          exact absurd (congrArg List.length happ) (by simp)
        rw [happ]
        refine List.Nodup.append hrepN (List.nodup_singleton u) ?_
        intro w hw hw'
        have : w = u := List.mem_singleton.mp hw'
        exact hnot (this ▸ hw)
    · -- field tally
      intro rep' hrep'
      by_cases hmem : u ∈ ts.reputations.map (·.userId)
      · rw [upsert_of_mem hmem] at hrep'
        obtain ⟨rep, hrep, heq⟩ := List.mem_map.mp hrep'
        by_cases hru : rep.userId = u
        · have heq' : rep' = { rep with
              score := rep.score + REPUTATION_PER_VERIFIED,
              verifiedReports := rep.verifiedReports + 1 } := by
            rw [← heq]; simp [hru]
          have hlen := (hscore rep hrep)
          subst heq'
          simp only
          rw [hru, awardsTo_append_same]
          constructor
          · rw [hlen.1, hru]
            simp [Nat.mul_add]
          · rw [hlen.2, hru]
            simp
        · have heq' : rep' = rep := by rw [← heq]; simp [hru]
          subst heq'
          rw [awardsTo_append_other (fun he => hru he.symm)]
          exact hscore rep' hrep
      · rw [upsert_of_not_mem hmem] at hrep'
        rcases List.mem_append.mp hrep' with hold | hnew
        · have hne : rep'.userId ≠ u := by
            intro he
            exact hmem (List.mem_map.mpr ⟨rep', hold, he⟩)
          rw [awardsTo_append_other (fun he => hne he.symm)]
          exact hscore rep' hold
        · have heq' : rep' = ⟨u, REPUTATION_PER_VERIFIED, 1⟩ :=
            List.mem_singleton.mp hnew
          subst heq'
          have hnil : awardsTo u ts.awards = [] := by
            refine awardsTo_eq_nil (fun p hp he => ?_)
            obtain ⟨rep, hrep, hru⟩ := hcov p hp
            exact hmem (List.mem_map.mpr ⟨rep, hrep, by rw [hru, he]⟩)
          simp [awardsTo_append_same, hnil]
    · -- coverage
      intro p hp
      rcases List.mem_append.mp hp with hold | hnew
      · obtain ⟨rep, hrep, hru⟩ := hcov p hold
        have : rep.userId ∈ (upsertReputation u ts.reputations).map (·.userId) := by
          rcases upsert_userIds_cases u ts.reputations with hsame | happ
          · rw [hsame]; exact List.mem_map.mpr ⟨rep, hrep, rfl⟩
          · rw [happ]
            exact List.mem_append.mpr (.inl (List.mem_map.mpr ⟨rep, hrep, rfl⟩))
        obtain ⟨rep', hrep', hru'⟩ := List.mem_map.mp this
        exact ⟨rep', hrep', hru'.trans hru⟩
      · have hpu : p = (rid, u) := List.mem_singleton.mp hnew
        subst hpu
        have : u ∈ (upsertReputation u ts.reputations).map (·.userId) := by
          by_cases hmem : u ∈ ts.reputations.map (·.userId)
          · rw [upsert_userIds_of_mem hmem]; exact hmem
          · rw [upsert_of_not_mem hmem]; simp
        obtain ⟨rep', hrep', hru'⟩ := List.mem_map.mp this
        exact ⟨rep', hrep', hru'⟩
    · -- ledger gains no duplicate
      exact nodup_append_singleton' hawN (hfresh u (List.mem_cons_self u rest))

lemma exists_image_setStatus {r : DumpReport} {rs : List DumpReport}
    (h : r ∈ rs) (rid : ReportId) (st : DumpStatus) :
    ∃ r' ∈ setStatus rid st rs, r'.id = r.id ∧ r'.reporterId = r.reporterId ∧
      (r'.status = r.status ∨ r'.status = st) := by
  refine ⟨if r.id = rid then { r with status := st } else r,
    mem_setStatus_iff.mpr ⟨r, h, rfl⟩, ?_, ?_, ?_⟩ <;>
    by_cases hid : r.id = rid <;> simp [hid]

/-- Effect of the threshold block run under its precondition: the
transaction invariant is restored, verifications are untouched, `rid` is
flipped, and the ledger grows only by pairs for `rid`. -/
lemma flipAndAward_spec {rid : ReportId} {ts : TxState} (h : PreFlip rid ts) :
    TxInv (flipAndAward rid ts) ∧
    (flipAndAward rid ts).verifications = ts.verifications ∧
    (flipAndAward rid ts).reports = setStatus rid .VERIFIED ts.reports ∧
    (∃ aex, (flipAndAward rid ts).awards = ts.awards ++ aex ∧
      ∀ p ∈ aex, p.1 = rid) := by
  have hver : (flipAndAward rid ts).verifications = ts.verifications :=
    awardVerifiers_verifications _ _ _
  have hrep : (flipAndAward rid ts).reports = setStatus rid .VERIFIED ts.reports :=
    awardVerifiers_reports _ _ _
  have haw : (flipAndAward rid ts).awards =
      ts.awards ++ (verifiersOf rid ts.verifications).map (fun u => (rid, u)) :=
    awardVerifiers_awards _ _ _
  have hfresh : ∀ u ∈ verifiersOf rid ts.verifications, (rid, u) ∉ ts.awards := by
    intro u _ hmem
    obtain ⟨r, hr, hid, hst⟩ := h.awardVerified (rid, u) hmem
    have hu := h.ridUnv r hr hid
    rw [hu] at hst
    exact DumpStatus.noConfusion hst
  have husN : (verifiersOf rid ts.verifications).Nodup :=
    verifiersOf_nodup _ _ h.verNodup
  have hrepInv := awardVerifiers_repInv rid (verifiersOf rid ts.verifications)
    { ts with reports := setStatus rid .VERIFIED ts.reports }
    husN hfresh h.repNodup h.scoreEq h.awardHasRep h.awardsNodup
  refine ⟨?_, hver, hrep, ?_⟩
  · refine ⟨?_, ?_, ?_, ?_, ?_, ?_, ?_, ?_, ?_, ?_⟩
    · rw [hver]; exact h.verNodup
    · rw [hrep, setStatus_map_id]; exact h.idsNodup
    · intro v hv
      rw [hver] at hv
      obtain ⟨r, hr, hid⟩ := h.verHasReport v hv
      obtain ⟨r', hr', hid', _, _⟩ := exists_image_setStatus hr rid .VERIFIED
      exact ⟨r', hrep ▸ hr', hid'.trans hid⟩
    · intro r' hr'
      rw [hrep] at hr'
      obtain ⟨r, hr, hrr⟩ := mem_setStatus_iff.mp hr'
      have hself := h.selfVer r hr
      rw [hver]
      by_cases hid : r.id = rid <;> simp only [hrr, hid, if_pos, if_neg, if_true] <;>
        simpa [hid] using hself
    · intro r' hr'
      rw [hrep] at hr'
      rw [hver]
      obtain ⟨r, hr, hrr⟩ := mem_setStatus_iff.mp hr'
      by_cases hid : r.id = rid
      · have hcnt : countVerifications r'.id ts.verifications =
            countVerifications rid ts.verifications := by
          rw [hrr]; simp [hid]
        rw [hcnt]
        constructor
        · intro _; exact h.ridCnt
        · intro _
          rw [hrr]
          simp [hid]
      · have hrr' : r' = r := by simpa [hid] using hrr
        subst hrr'
        exact h.statusCountOther r' hr hid
    · exact hrepInv.2.2.2
    · intro p hp
      rw [haw] at hp
      rcases List.mem_append.mp hp with hold | hnew
      · obtain ⟨r, hr, hid, hst⟩ := h.awardVerified p hold
        obtain ⟨r', hr', hid', _, hst'⟩ := exists_image_setStatus hr rid .VERIFIED
        refine ⟨r', hrep ▸ hr', hid'.trans hid, ?_⟩
        rcases hst' with hs | hs
        · rw [hs, hst]
        · exact hs
      · obtain ⟨u, _, hpu⟩ := List.mem_map.mp hnew
        obtain ⟨r0, hr0, hid0⟩ := h.ridMem
        refine ⟨{ r0 with status := .VERIFIED }, ?_, ?_, rfl⟩
        · rw [hrep, ← hid0]
          exact mem_setStatus_self hr0 _
        · simp [hid0, ← hpu]
    · exact hrepInv.1
    · exact hrepInv.2.1
    · exact hrepInv.2.2.1
  · refine ⟨(verifiersOf rid ts.verifications).map (fun u => (rid, u)), haw, ?_⟩
    intro p hp
    obtain ⟨u, _, hpu⟩ := List.mem_map.mp hp
    rw [← hpu]

lemma count_pos_of_mem {v : DumpVerification} {vs : List DumpVerification}
    (h : v ∈ vs) (rid : ReportId) (hid : v.dumpReportId = rid) :
    1 ≤ countVerifications rid vs := by
  have : v ∈ vs.filter (fun w => w.dumpReportId == rid) :=
    List.mem_filter.mpr ⟨h, by simp [hid]⟩
  have := List.length_pos.mpr (List.ne_nil_of_mem this)
  simpa [countVerifications] using this

lemma report_id_inj {rs : List DumpReport} (hN : (rs.map (·.id)).Nodup)
    {a b : DumpReport} (ha : a ∈ rs) (hb : b ∈ rs) (hid : a.id = b.id) : a = b :=
  List.inj_on_of_nodup_map hN ha hb hid

/-- One pass of `processNearby` under an accurate snapshot: it succeeds
and satisfies `StepOut`. -/
lemma processNearby_spec {reporterId : UserId} {rid : ReportId}
    {n : NearbySnapshot} {ts : TxState}
    (hInv : TxInv ts) (hSnap : SnapOK reporterId rid ts n) :
    ∃ ts', processNearby reporterId n ts = .ok ts' ∧ StepOut reporterId n ts ts' := by
  obtain ⟨hmem, hfilt, hother, hnrid⟩ := hSnap
  by_cases hskip : n.verifications.any (fun v => v.verifierId == reporterId)
  · refine ⟨ts, by simp [processNearby, hskip], ?_⟩
    obtain ⟨v, hv, hvu⟩ := List.any_eq_true.mp hskip
    have hv' : v ∈ ts.verifications.filter (fun w => w.dumpReportId == n.report.id) := by
      rw [hfilt]; exact hv
    have hvmem := List.mem_filter.mp hv'
    have hveq : v = ⟨n.report.id, reporterId⟩ := by
      obtain ⟨h1, h2⟩ := hvmem
      cases v
      simp_all
    refine ⟨hInv, ⟨[], by simp, by simp⟩, .inl rfl, ⟨[], by simp, by simp⟩, ?_⟩
    rw [← hveq]
    exact hvmem.1
  · -- the pair is genuinely new
    have hnew : (⟨n.report.id, reporterId⟩ : DumpVerification) ∉ ts.verifications := by
      intro hc
      apply hskip
      refine List.any_eq_true.mpr ⟨⟨n.report.id, reporterId⟩, ?_, by simp⟩
      rw [← hfilt]
      exact List.mem_filter.mpr ⟨hc, by simp⟩
    have hcreate := createVerification_ok_of_not_mem hnew
    have hprev : 1 ≤ countVerifications n.report.id ts.verifications :=
      count_pos_of_mem (hInv.selfVer n.report hmem) _ rfl
    have hcnt : countVerifications n.report.id
        (ts.verifications ++ [⟨n.report.id, reporterId⟩]) =
        countVerifications n.report.id ts.verifications + 1 := by
      rw [countVerifications_append, countVerifications_singleton_self]
    have hcnt2 : 2 ≤ countVerifications n.report.id
        (ts.verifications ++ [⟨n.report.id, reporterId⟩]) := by
      omega
    -- the post-create transaction state
    set ts1 : TxState := { ts with
      verifications := ts.verifications ++ [⟨n.report.id, reporterId⟩] } with hts1
    have hcommon :
        ts1.verifications.Nodup ∧
        (∀ v ∈ ts1.verifications, ∃ r ∈ ts1.reports, r.id = v.dumpReportId) ∧
        (∀ r ∈ ts1.reports, (⟨r.id, r.reporterId⟩ : DumpVerification) ∈ ts1.verifications) ∧
        (∀ r ∈ ts1.reports, r.id ≠ n.report.id →
          (r.status = .VERIFIED ↔ 2 ≤ countVerifications r.id ts1.verifications)) := by
      refine ⟨nodup_append_singleton hInv.verNodup hnew, ?_, ?_, ?_⟩
      · intro v hv
        rcases List.mem_append.mp hv with hv | hv
        · exact hInv.verHasReport v hv
        · have : v = ⟨n.report.id, reporterId⟩ := List.mem_singleton.mp hv
          exact ⟨n.report, hmem, by rw [this]⟩
      · intro r hr
        exact List.mem_append.mpr (.inl (hInv.selfVer r hr))
      · intro r hr hne
        have hz : countVerifications r.id
            [(⟨n.report.id, reporterId⟩ : DumpVerification)] = 0 := by
          refine countVerifications_eq_zero _ _ ?_
          intro v hv
          have hveq : v = ⟨n.report.id, reporterId⟩ := List.mem_singleton.mp hv
          rw [hveq]
          exact fun hc => hne hc.symm
        have hsame : countVerifications r.id ts1.verifications =
            countVerifications r.id ts.verifications := by
          show countVerifications r.id
            (ts.verifications ++ [⟨n.report.id, reporterId⟩]) = _
          rw [countVerifications_append, hz]
          omega
        rw [hsame]
        exact hInv.statusCount r hr
    by_cases hflip : 2 ≤ countVerifications n.report.id ts1.verifications ∧
        n.report.status = DumpStatus.UNVERIFIED
    · -- threshold crossed: flip and award
      have hpre : PreFlip n.report.id ts1 := by
        refine ⟨hcommon.1, hInv.idsNodup, hcommon.2.1, hcommon.2.2.1, hcommon.2.2.2,
          ?_, ⟨n.report, hmem, rfl⟩, hflip.1, hInv.awardsNodup, ?_, hInv.repNodup,
          hInv.scoreEq, hInv.awardHasRep⟩
        · intro r hr hrid
          have : r = n.report := report_id_inj hInv.idsNodup hr hmem hrid
          rw [this]
          exact hflip.2
        · exact hInv.awardVerified
      obtain ⟨hinv', hver', hrep', aex, haex, haexp⟩ := flipAndAward_spec hpre
      refine ⟨flipAndAward n.report.id ts1, ?_, ?_⟩
      · unfold processNearby
        rw [if_neg hskip, hcreate]
        show (if 2 ≤ countVerifications n.report.id ts1.verifications ∧
            n.report.status = DumpStatus.UNVERIFIED then
            pure (flipAndAward n.report.id ts1) else pure ts1) = _
        rw [if_pos hflip]
        rfl
      · refine ⟨hinv', ⟨[⟨n.report.id, reporterId⟩], ?_, ?_⟩, .inr ?_,
          ⟨aex, haex, ?_⟩, ?_⟩
        · rw [hver']
        · intro v hv
          have : v = ⟨n.report.id, reporterId⟩ := List.mem_singleton.mp hv
          rw [this]
          exact ⟨rfl, rfl⟩
        · rw [hrep']
        · exact fun p hp => ⟨haexp p hp, hflip.2⟩
        · rw [hver']
          exact List.mem_append.mpr (.inr (List.mem_singleton.mpr rfl))
    · -- no flip: the count rose but the snapshot was already VERIFIED
      have hst : n.report.status = DumpStatus.VERIFIED := by
        cases hstatus : n.report.status
        · exact absurd ⟨hcnt2, hstatus⟩ hflip
        · rfl
      refine ⟨ts1, ?_, ?_⟩
      · unfold processNearby
        rw [if_neg hskip, hcreate]
        show (if 2 ≤ countVerifications n.report.id ts1.verifications ∧
            n.report.status = DumpStatus.UNVERIFIED then
            pure (flipAndAward n.report.id ts1) else pure ts1) = _
        rw [if_neg hflip]
        rfl
      · refine ⟨?_, ⟨[⟨n.report.id, reporterId⟩], rfl, ?_⟩, .inl rfl,
          ⟨[], by simp, by simp⟩, ?_⟩
        · refine ⟨hcommon.1, hInv.idsNodup, hcommon.2.1, hcommon.2.2.1, ?_,
            hInv.awardsNodup, hInv.awardVerified, hInv.repNodup, hInv.scoreEq,
            hInv.awardHasRep⟩
          intro r hr
          by_cases hne : r.id = n.report.id
          · have : r = n.report := report_id_inj hInv.idsNodup hr hmem hne
            rw [this, hst]
            exact ⟨fun _ => hcnt2, fun _ => rfl⟩
          · exact hcommon.2.2.2 r hr hne
        · intro v hv
          have : v = ⟨n.report.id, reporterId⟩ := List.mem_singleton.mp hv
          rw [this]
          exact ⟨rfl, rfl⟩
        · exact List.mem_append.mpr (.inr (List.mem_singleton.mpr rfl))

lemma except_bind_ok_inv {α β : Type} {e : Except SubmitError α}
    {f : α → Except SubmitError β} {b : β}
    (h : (e >>= f) = .ok b) : ∃ a, e = .ok a ∧ f a = .ok b := by
  cases e with
  | error err => exact Except.noConfusion h
  | ok a => exact ⟨a, rfl, h⟩

/-- The whole first loop under accurate snapshots with distinct report
ids: it succeeds and satisfies `LoopOut`. -/
lemma processNearbyList_spec {reporterId : UserId} {rid : ReportId}
    {ns : List NearbySnapshot} {ts : TxState}
    (hInv : TxInv ts) (hSnap : ∀ n ∈ ns, SnapOK reporterId rid ts n)
    (hids : (ns.map (·.report.id)).Nodup) :
    ∃ ts', processNearbyList reporterId ns ts = .ok ts' ∧
      LoopOut reporterId ns ts ts' := by
  induction ns generalizing ts with
  | nil =>
    refine ⟨ts, rfl, hInv, ⟨[], by simp, by simp⟩, rfl, fun r hr _ => hr,
      fun r hr => ⟨r, hr, rfl, .inl rfl⟩, ⟨[], by simp, by simp⟩, by simp⟩
  | cons n rest ih =>
    obtain ⟨hnid, hrestids⟩ := List.nodup_cons.mp hids
    obtain ⟨mid, hmid, hstep⟩ := processNearby_spec hInv (hSnap n (List.mem_cons_self n rest))
    obtain ⟨ex1, hex1, hex1p⟩ := hstep.verExt
    have hSnapRest : ∀ m ∈ rest, SnapOK reporterId rid mid m := by
      intro m hm
      obtain ⟨hmmem, hmfilt, hmrep, hmrid⟩ := hSnap m (List.mem_cons_of_mem n hm)
      have hmne : m.report.id ≠ n.report.id := by
        intro he
        have : m.report.id ∈ rest.map (·.report.id) :=
          List.mem_map_of_mem (·.report.id) hm
        rw [he] at this
        exact hnid this
      refine ⟨?_, ?_, hmrep, hmrid⟩
      · rcases hstep.reportsEq with he | he
        · rw [he]; exact hmmem
        · rw [he]; exact mem_setStatus_of_ne hmmem _ _ hmne
      · rw [hex1, List.filter_append]
        have hex1nil : ex1.filter (fun v => v.dumpReportId == m.report.id) = [] := by
          rw [List.filter_eq_nil_iff]
          intro v hv
          have := (hex1p v hv).1
          simp [this, hmne.symm]
        rw [hex1nil, List.append_nil, hmfilt]
    obtain ⟨ts', hts', hloop⟩ := ih hstep.inv hSnapRest hrestids
    refine ⟨ts', ?_, ?_⟩
    · show processNearbyList reporterId (n :: rest) ts = .ok ts'
      unfold processNearbyList
      rw [hmid]
      exact hts'
    obtain ⟨ex2, hex2, hex2p⟩ := hloop.verExt
    refine ⟨hloop.inv, ⟨ex1 ++ ex2, ?_, ?_⟩, ?_, ?_, ?_, ?_, ?_⟩
    · rw [hex2, hex1, List.append_assoc]
    · intro v hv
      rcases List.mem_append.mp hv with hv | hv
      · obtain ⟨h1, h2⟩ := hex1p v hv
        exact ⟨⟨n, List.mem_cons_self n rest, h1⟩, h2⟩
      · obtain ⟨⟨m, hm, h1⟩, h2⟩ := hex2p v hv
        exact ⟨⟨m, List.mem_cons_of_mem n hm, h1⟩, h2⟩
    · rw [hloop.idsEq]
      rcases hstep.reportsEq with he | he
      · rw [he]
      · rw [he, setStatus_map_id]
    · intro r hr hunt
      have hrn : r.id ≠ n.report.id := hunt n (List.mem_cons_self n rest)
      have hrmid : r ∈ mid.reports := by
        rcases hstep.reportsEq with he | he
        · rw [he]; exact hr
        · rw [he]; exact mem_setStatus_of_ne hr _ _ hrn
      exact hloop.keepUntouched r hrmid
        (fun m hm => hunt m (List.mem_cons_of_mem n hm))
    · intro r hr
      have hrmid : ∃ rm ∈ mid.reports, rm.id = r.id ∧
          (rm = r ∨ rm = { r with status := DumpStatus.VERIFIED }) := by
        rcases hstep.reportsEq with he | he
        · exact ⟨r, he ▸ hr, rfl, .inl rfl⟩
        · refine ⟨if r.id = n.report.id then { r with status := .VERIFIED } else r,
            he ▸ mem_setStatus_iff.mpr ⟨r, hr, rfl⟩, ?_, ?_⟩
          · by_cases hc : r.id = n.report.id <;> simp [hc]
          · by_cases hc : r.id = n.report.id <;> simp [hc]
      obtain ⟨rm, hrm, hrmid', hrmcase⟩ := hrmid
      obtain ⟨r', hr', hrid', hrcase⟩ := hloop.monotoneStatus rm hrm
      refine ⟨r', hr', hrid'.trans hrmid', ?_⟩
      rcases hrmcase with h1 | h1 <;> rcases hrcase with h2 | h2
      · exact .inl (h2.trans h1)
      · rw [h1] at h2
        exact .inr h2
      · rw [h1] at h2
        exact .inr h2
      · rw [h1] at h2
        exact .inr h2
    · obtain ⟨aex1, haex1, haex1p⟩ := hstep.awardsExt
      obtain ⟨aex2, haex2, haex2p⟩ := hloop.awardsExt
      refine ⟨aex1 ++ aex2, ?_, ?_⟩
      · rw [haex2, haex1, List.append_assoc]
      · intro p hp
        rcases List.mem_append.mp hp with hp | hp
        · obtain ⟨h1, h2⟩ := haex1p p hp
          exact ⟨n, List.mem_cons_self n rest, h1, h2⟩
        · obtain ⟨m, hm, h1, h2⟩ := haex2p p hp
          exact ⟨m, List.mem_cons_of_mem n hm, h1, h2⟩
    · intro m hm
      rcases List.mem_cons.mp hm with hm | hm
      · subst hm
        rw [hex2]
        exact List.mem_append.mpr (.inl hstep.rowMem)
      · exact hloop.rowMem m hm

/-- Shape of a successful back-link loop: it appends one row
`(rid, author)` per snapshot, and preserves freedom from duplicates. -/
lemma createBackLinks_spec {rid : ReportId} {ns : List NearbySnapshot}
    {vs vs' : List DumpVerification} (h : createBackLinks rid ns vs = .ok vs') :
    ∃ ex, vs' = vs ++ ex ∧
      (∀ v ∈ ex, v.dumpReportId = rid ∧
        ∃ n ∈ ns, v.verifierId = n.report.reporterId) ∧
      (vs.Nodup → vs'.Nodup) := by
  induction ns generalizing vs with
  | nil =>
    have : vs = vs' := by
      unfold createBackLinks at h
      exact Except.ok.inj h
    subst this
    exact ⟨[], by simp, by simp, fun hn => hn⟩
  | cons n rest ih =>
    unfold createBackLinks at h
    obtain ⟨vs1, hc, hrest⟩ := except_bind_ok_inv h
    obtain ⟨hnot, hvs1⟩ := createVerification_ok hc
    obtain ⟨ex2, hex2, hex2p, hex2nd⟩ := ih hrest
    refine ⟨⟨rid, n.report.reporterId⟩ :: ex2, ?_, ?_, ?_⟩
    · rw [hex2, hvs1, List.append_assoc]
      rfl
    · intro v hv
      rcases List.mem_cons.mp hv with hv | hv
      · subst hv
        exact ⟨rfl, n, List.mem_cons_self n rest, rfl⟩
      · obtain ⟨h1, m, hm, h2⟩ := hex2p v hv
        exact ⟨h1, m, List.mem_cons_of_mem n hm, h2⟩
    · intro hnd
      exact hex2nd (hvs1 ▸ nodup_append_singleton hnd hnot)

lemma clusteredOf_snapOK {near : ℚ → ℚ → ℚ → ℚ → Bool} {inp : SubmitInput}
    {rid : ReportId} {ts1 : TxState} {n : NearbySnapshot}
    (hn : n ∈ clusteredOf near inp rid ts1) : SnapOK inp.reporterId rid ts1 n := by
  obtain ⟨r, hr, hrn⟩ := List.mem_map.mp hn
  obtain ⟨hr1, hnear⟩ := List.mem_filter.mp hr
  obtain ⟨hr0, hcond⟩ := List.mem_filter.mp hr1
  simp only [Bool.and_eq_true, bne_iff_ne, ne_eq] at hcond
  subst hrn
  exact ⟨hr0, rfl, hcond.1.2, hcond.1.1⟩

lemma clusteredOf_ids_nodup {near : ℚ → ℚ → ℚ → ℚ → Bool} {inp : SubmitInput}
    {rid : ReportId} {ts1 : TxState} (h : (ts1.reports.map (·.id)).Nodup) :
    ((clusteredOf near inp rid ts1).map (·.report.id)).Nodup := by
  unfold clusteredOf
  rw [List.map_map]
  have hsub : ((ts1.reports.filter (fun r =>
      r.id != rid && r.reporterId != inp.reporterId &&
      (r.status == DumpStatus.UNVERIFIED || r.status == DumpStatus.VERIFIED))).filter
      (fun r => near inp.latitude inp.longitude r.latitude r.longitude)).Sublist
      ts1.reports :=
    (List.filter_sublist _).trans (List.filter_sublist _)
  exact List.Nodup.sublist (List.Sublist.map _ hsub) h

lemma clusteredOf_mem {near : ℚ → ℚ → ℚ → ℚ → Bool} {inp : SubmitInput}
    {rid : ReportId} {ts1 : TxState} {X : DumpReport}
    (hX : X ∈ ts1.reports) (hid : X.id ≠ rid) (hrep : X.reporterId ≠ inp.reporterId)
    (hnear : near inp.latitude inp.longitude X.latitude X.longitude = true) :
    (⟨X, ts1.verifications.filter (fun v => v.dumpReportId == X.id)⟩ : NearbySnapshot) ∈
      clusteredOf near inp rid ts1 := by
  unfold clusteredOf
  refine List.mem_map.mpr ⟨X,
    List.mem_filter.mpr ⟨List.mem_filter.mpr ⟨hX, ?_⟩, hnear⟩, rfl⟩
  simp only [Bool.and_eq_true, bne_iff_ne, ne_eq, Bool.or_eq_true, beq_iff_eq]
  refine ⟨⟨hid, hrep⟩, ?_⟩
  cases X.status
  · exact .inl rfl
  · exact .inr rfl

/-- What a successful cluster stage guarantees, starting from a state
whose only report with id `rid` is the fresh `UNVERIFIED` one. -/
lemma txCluster_ok_spec {near : ℚ → ℚ → ℚ → ℚ → Bool} {inp : SubmitInput}
    {rid : ReportId} {ts1 tsF : TxState}
    (hInv : TxInv ts1)
    (hridUnv : ∀ r ∈ ts1.reports, r.id = rid → r.status = .UNVERIFIED)
    (hridMem : ∃ r ∈ ts1.reports, r.id = rid)
    (h : txCluster near inp rid ts1 = .ok tsF) :
    TxInv tsF ∧
    tsF.reports.map (·.id) = ts1.reports.map (·.id) ∧
    (∃ aex, tsF.awards = ts1.awards ++ aex ∧ ∀ p ∈ aex, p.1 = rid ∨
      ∃ n ∈ clusteredOf near inp rid ts1, p.1 = n.report.id ∧
        n.report.status = .UNVERIFIED) ∧
    (∀ r ∈ ts1.reports, ∃ r' ∈ tsF.reports, r'.id = r.id ∧
      (r' = r ∨ r' = { r with status := DumpStatus.VERIFIED })) ∧
    (∀ v ∈ ts1.verifications, v ∈ tsF.verifications) ∧
    (∀ n ∈ clusteredOf near inp rid ts1,
      (⟨n.report.id, inp.reporterId⟩ : DumpVerification) ∈ tsF.verifications) := by
  unfold txCluster at h
  by_cases hlen : (clusteredOf near inp rid ts1).length > 0
  case neg =>
    rw [if_neg hlen] at h
    have hempty : clusteredOf near inp rid ts1 = [] := by
      cases hc : clusteredOf near inp rid ts1 with
      | nil => rfl
      | cons a l => rw [hc] at hlen; simp at hlen
    have htsF : ts1 = tsF := Except.ok.inj h
    subst htsF
    refine ⟨hInv, rfl, ⟨[], by simp, by simp⟩, fun r hr => ⟨r, hr, rfl, .inl rfl⟩,
      fun v hv => hv, ?_⟩
    rw [hempty]
    intro n hn
    exact absurd hn (List.not_mem_nil n)
  case pos =>
    rw [if_pos hlen] at h
    obtain ⟨ts2, hts2, hloop⟩ := processNearbyList_spec hInv
      (fun n hn => clusteredOf_snapOK hn) (clusteredOf_ids_nodup hInv.idsNodup)
    rw [hts2] at h
    replace h : (match createBackLinks rid (clusteredOf near inp rid ts1)
        ts2.verifications with
      | .error e => (.error e : Except SubmitError TxState)
      | .ok vs3 =>
        if 2 ≤ countVerifications rid vs3 then
          .ok (flipAndAward rid { ts2 with verifications := vs3 })
        else .ok { ts2 with verifications := vs3 }) = .ok tsF := h
    -- the fresh report survives the loop untouched
    obtain ⟨r0, hr0, hr0id⟩ := hridMem
    have hr0unt : ∀ m ∈ clusteredOf near inp rid ts1, r0.id ≠ m.report.id := by
      intro m hm
      have := (clusteredOf_snapOK hm).2.2.2
      rw [hr0id]
      exact fun he => this he.symm
    have hr0ts2 : r0 ∈ ts2.reports := hloop.keepUntouched r0 hr0 hr0unt
    have hr0unv : r0.status = .UNVERIFIED := hridUnv r0 hr0 hr0id
    obtain ⟨exv, hexv, hexvp⟩ := hloop.verExt
    obtain ⟨aex1, haex1, haex1p⟩ := hloop.awardsExt
    split at h
    next e heq => exact Except.noConfusion h
    next vs3 heq =>
      obtain ⟨exb, hexb, hexbp, hexbnd⟩ := createBackLinks_spec heq
      have hcount : ∀ i, i ≠ rid → countVerifications i vs3 =
          countVerifications i ts2.verifications := by
        intro i hi
        rw [hexb, countVerifications_append, countVerifications_eq_zero i exb ?_]
        · omega
        · intro v hv
          rw [(hexbp v hv).1]
          exact fun he => hi he.symm
      have hverMono : ∀ v ∈ ts1.verifications, v ∈ vs3 := by
        intro v hv
        rw [hexb]
        refine List.mem_append.mpr (.inl ?_)
        rw [hexv]
        exact List.mem_append.mpr (.inl hv)
      have hrowMem : ∀ n ∈ clusteredOf near inp rid ts1,
          (⟨n.report.id, inp.reporterId⟩ : DumpVerification) ∈ vs3 := by
        intro n hn
        rw [hexb]
        exact List.mem_append.mpr (.inl (hloop.rowMem n hn))
      have hselfVer3 : ∀ r ∈ ts2.reports,
          (⟨r.id, r.reporterId⟩ : DumpVerification) ∈ vs3 := by
        intro r hr
        rw [hexb]
        exact List.mem_append.mpr (.inl (hloop.inv.selfVer r hr))
      have hverHasReport3 : ∀ v ∈ vs3, ∃ r ∈ ts2.reports, r.id = v.dumpReportId := by
        intro v hv
        rw [hexb] at hv
        rcases List.mem_append.mp hv with hv | hv
        · exact hloop.inv.verHasReport v hv
        · exact ⟨r0, hr0ts2, by rw [(hexbp v hv).1, hr0id]⟩
      have hstatusOther : ∀ r ∈ ts2.reports, r.id ≠ rid →
          (r.status = .VERIFIED ↔ 2 ≤ countVerifications r.id vs3) := by
        intro r hr hne
        rw [hcount r.id hne]
        exact hloop.inv.statusCount r hr
      have hridUnv2 : ∀ r ∈ ts2.reports, r.id = rid → r.status = .UNVERIFIED := by
        intro r hr hrid
        have : r = r0 := report_id_inj hloop.inv.idsNodup hr hr0ts2
          (hrid.trans hr0id.symm)
        rw [this]
        exact hr0unv
      have hnd3 : vs3.Nodup := hexbnd hloop.inv.verNodup
      by_cases hcnt : 2 ≤ countVerifications rid vs3
      · rw [if_pos hcnt] at h
        have htsF : flipAndAward rid { ts2 with verifications := vs3 } = tsF :=
          Except.ok.inj h
        have hpre : PreFlip rid { ts2 with verifications := vs3 } := by
          refine ⟨hnd3, hloop.inv.idsNodup, hverHasReport3, hselfVer3,
            hstatusOther, hridUnv2, ⟨r0, hr0ts2, hr0id⟩, hcnt,
            hloop.inv.awardsNodup, hloop.inv.awardVerified, hloop.inv.repNodup,
            hloop.inv.scoreEq, hloop.inv.awardHasRep⟩
        obtain ⟨hinv', hver', hrep', aex2, haex2, haex2p⟩ := flipAndAward_spec hpre
        rw [htsF] at hinv' hver' hrep' haex2
        refine ⟨hinv', ?_, ⟨aex1 ++ aex2, ?_, ?_⟩, ?_, ?_, ?_⟩
        · rw [hrep', setStatus_map_id]
          exact hloop.idsEq
        · rw [haex2]
          show ts2.awards ++ aex2 = ts1.awards ++ (aex1 ++ aex2)
          rw [haex1, List.append_assoc]
        · intro p hp
          rcases List.mem_append.mp hp with hp | hp
          · obtain ⟨m, hm, h1, h2⟩ := haex1p p hp
            exact .inr ⟨m, hm, h1, h2⟩
          · exact .inl (haex2p p hp)
        · intro r hr
          obtain ⟨r', hr', hrid', hrcase⟩ := hloop.monotoneStatus r hr
          have hmem' : (if r'.id = rid then
              ({ r' with status := DumpStatus.VERIFIED } : DumpReport) else r') ∈
              tsF.reports := by
            rw [hrep']
            exact mem_setStatus_iff.mpr ⟨r', hr', rfl⟩
          by_cases hc : r'.id = rid
          · rw [if_pos hc] at hmem'
            refine ⟨{ r' with status := DumpStatus.VERIFIED }, hmem', hrid', ?_⟩
            rcases hrcase with h1 | h1
            · exact .inr (by rw [h1])
            · exact .inr (by rw [h1])
          · rw [if_neg hc] at hmem'
            exact ⟨r', hmem', hrid', hrcase⟩
        · intro v hv
          rw [hver']
          exact hverMono v hv
        · intro n hn
          rw [hver']
          exact hrowMem n hn
      · rw [if_neg hcnt] at h
        have htsF : ({ ts2 with verifications := vs3 } : TxState) = tsF :=
          Except.ok.inj h
        have hinv3 : TxInv ({ ts2 with verifications := vs3 } : TxState) := by
          refine ⟨hnd3, hloop.inv.idsNodup, hverHasReport3, hselfVer3, ?_,
            hloop.inv.awardsNodup, hloop.inv.awardVerified, hloop.inv.repNodup,
            hloop.inv.scoreEq, hloop.inv.awardHasRep⟩
          intro r hr
          by_cases hc : r.id = rid
          · have hru : r.status = .UNVERIFIED := hridUnv2 r hr hc
            rw [hru, hc]
            constructor
            · intro he
              exact DumpStatus.noConfusion he
            · intro hge
              exact absurd hge hcnt
          · exact hstatusOther r hr hc
        rw [htsF] at hinv3
        refine ⟨hinv3, ?_, ⟨aex1, ?_, ?_⟩, ?_, ?_, ?_⟩
        · rw [← htsF]
          exact hloop.idsEq
        · rw [← htsF]
          show ts2.awards = ts1.awards ++ aex1
          exact haex1
        · intro p hp
          obtain ⟨m, hm, h1, h2⟩ := haex1p p hp
          exact .inr ⟨m, hm, h1, h2⟩
        · intro r hr
          obtain ⟨r', hr', hrid', hrcase⟩ := hloop.monotoneStatus r hr
          refine ⟨r', ?_, hrid', hrcase⟩
          rw [← htsF]
          exact hr'
        · intro v hv
          rw [← htsF]
          exact hverMono v hv
        · intro n hn
          rw [← htsF]
          exact hrowMem n hn

lemma no_verification_for_fresh {s : Store} (hInv : Inv s)
    {v : DumpVerification} (hv : v ∈ s.verifications) : v.dumpReportId ≠ s.nextId := by
  intro he
  obtain ⟨r, hr, hrid⟩ := hInv.verHasReport v hv
  exact absurd (hrid.trans he) (Nat.ne_of_lt (hInv.idsLt r hr))

lemma fresh_id_not_mem {s : Store} (hInv : Inv s) :
    s.nextId ∉ s.reports.map (·.id) := by
  intro hmem
  obtain ⟨r, hr, hrid⟩ := List.mem_map.mp hmem
  exact absurd hrid (Nat.ne_of_lt (hInv.idsLt r hr))

/-- What a successful transaction body guarantees over the pre-state. -/
lemma txBody_ok_spec {near : ℚ → ℚ → ℚ → ℚ → Bool} {inp : SubmitInput}
    {photoHash : Str} {s : Store} {tsF : TxState}
    (hInv : Inv s) (h : txBody near inp photoHash s = .ok tsF) :
    TxInv tsF ∧
    tsF.reports.map (·.id) = s.reports.map (·.id) ++ [s.nextId] ∧
    (∃ aex, tsF.awards = s.awards ++ aex ∧ ∀ p ∈ aex, p.1 = s.nextId ∨
      ∃ r ∈ s.reports, r.id = p.1 ∧ r.status = .UNVERIFIED) ∧
    (∀ r ∈ s.reports, ∃ r' ∈ tsF.reports, r'.id = r.id ∧
      (r' = r ∨ r' = { r with status := DumpStatus.VERIFIED })) ∧
    (∀ v ∈ s.verifications, v ∈ tsF.verifications) ∧
    (∀ X ∈ s.reports, X.reporterId ≠ inp.reporterId →
      near inp.latitude inp.longitude X.latitude X.longitude = true →
      (⟨X.id, inp.reporterId⟩ : DumpVerification) ∈ tsF.verifications) := by
  have hnm : (⟨s.nextId, inp.reporterId⟩ : DumpVerification) ∉ s.verifications :=
    fun hc => no_verification_for_fresh hInv hc rfl
  unfold txBody at h
  rw [createVerification_ok_of_not_mem hnm] at h
  replace h : txCluster near inp s.nextId
      ⟨s.reports ++ [⟨s.nextId, inp.reporterId, inp.latitude, inp.longitude,
        photoHash, inp.size, .UNVERIFIED⟩],
       s.verifications ++ [⟨s.nextId, inp.reporterId⟩],
       s.reputations, s.awards⟩ = .ok tsF := h
  set newR : DumpReport := ⟨s.nextId, inp.reporterId, inp.latitude, inp.longitude,
    photoHash, inp.size, .UNVERIFIED⟩ with hnewR
  set ts1 : TxState := ⟨s.reports ++ [newR],
    s.verifications ++ [⟨s.nextId, inp.reporterId⟩],
    s.reputations, s.awards⟩ with hts1
  have hids1 : ts1.reports.map (·.id) = s.reports.map (·.id) ++ [s.nextId] := by
    show (s.reports ++ [newR]).map (·.id) = _
    rw [List.map_append]
    rfl
  have hcount1 : ∀ (i : ReportId), i ≠ s.nextId →
      countVerifications i ts1.verifications = countVerifications i s.verifications := by
    intro i hi
    have hz : countVerifications i
        [(⟨s.nextId, inp.reporterId⟩ : DumpVerification)] = 0 := by
      refine countVerifications_eq_zero _ _ ?_
      intro v hv
      rw [List.mem_singleton.mp hv]
      exact fun he => hi he.symm
    show countVerifications i (s.verifications ++ [⟨s.nextId, inp.reporterId⟩]) = _
    rw [countVerifications_append, hz]
    exact Nat.add_zero _
  have hcnt1self : countVerifications s.nextId ts1.verifications = 1 := by
    show countVerifications s.nextId (s.verifications ++ [⟨s.nextId, inp.reporterId⟩]) = 1
    rw [countVerifications_append, countVerifications_eq_zero s.nextId s.verifications
      (fun v hv => no_verification_for_fresh hInv hv), countVerifications_singleton_self]
  have hInv1 : TxInv ts1 := by
    refine ⟨nodup_append_singleton hInv.verNodup hnm, ?_, ?_, ?_, ?_,
      hInv.awardsNodup, ?_, hInv.repNodup, hInv.scoreEq, hInv.awardHasRep⟩
    · rw [hids1]
      refine List.Nodup.append hInv.idsNodup (List.nodup_singleton _) ?_
      intro i hi hi'
      rw [List.mem_singleton.mp hi'] at hi
      exact fresh_id_not_mem hInv hi
    · intro v hv
      rcases List.mem_append.mp hv with hv | hv
      · obtain ⟨r, hr, hrid⟩ := hInv.verHasReport v hv
        exact ⟨r, List.mem_append.mpr (.inl hr), hrid⟩
      · refine ⟨newR, List.mem_append.mpr (.inr (List.mem_singleton.mpr rfl)), ?_⟩
        rw [List.mem_singleton.mp hv]
    · intro r hr
      rcases List.mem_append.mp hr with hr | hr
      · exact List.mem_append.mpr (.inl (hInv.selfVer r hr))
      · rw [List.mem_singleton.mp hr]
        exact List.mem_append.mpr (.inr (List.mem_singleton.mpr rfl))
    · intro r hr
      rcases List.mem_append.mp hr with hr | hr
      · have hne : r.id ≠ s.nextId := Nat.ne_of_lt (hInv.idsLt r hr)
        rw [hcount1 r.id hne]
        exact hInv.statusCount r hr
      · rw [List.mem_singleton.mp hr]
        show DumpStatus.UNVERIFIED = DumpStatus.VERIFIED ↔
          2 ≤ countVerifications newR.id ts1.verifications
        have : newR.id = s.nextId := rfl
        rw [this, hcnt1self]
        constructor
        · intro he
          exact DumpStatus.noConfusion he
        · intro hge
          exact absurd hge (by decide)
    · intro p hp
      obtain ⟨r, hr, h1, h2⟩ := hInv.awardVerified p hp
      exact ⟨r, List.mem_append.mpr (.inl hr), h1, h2⟩
  have hridUnv : ∀ r ∈ ts1.reports, r.id = s.nextId → r.status = .UNVERIFIED := by
    intro r hr hrid
    rcases List.mem_append.mp hr with hr | hr
    · exact absurd hrid (Nat.ne_of_lt (hInv.idsLt r hr))
    · rw [List.mem_singleton.mp hr]
  have hridMem : ∃ r ∈ ts1.reports, r.id = s.nextId :=
    ⟨newR, List.mem_append.mpr (.inr (List.mem_singleton.mpr rfl)), rfl⟩
  obtain ⟨hinvF, hidsF, ⟨aex, haex, haexp⟩, hmono, hverM, hrow⟩ :=
    txCluster_ok_spec hInv1 hridUnv hridMem h
  refine ⟨hinvF, by rw [hidsF, hids1], ⟨aex, haex, ?_⟩, ?_, ?_, ?_⟩
  · intro p hp
    rcases haexp p hp with h1 | ⟨n, hn, h1, h2⟩
    · exact .inl h1
    · right
      have hsnap := clusteredOf_snapOK hn
      have hmemn : n.report ∈ ts1.reports := hsnap.1
      rcases List.mem_append.mp hmemn with hm | hm
      · exact ⟨n.report, hm, h1.symm, h2⟩
      · exfalso
        apply hsnap.2.2.2
        rw [List.mem_singleton.mp hm]
  · intro r hr
    exact hmono r (List.mem_append.mpr (.inl hr))
  · intro v hv
    exact hverM v (List.mem_append.mpr (.inl hv))
  · intro X hX hXrep hXnear
    have hXne : X.id ≠ s.nextId := Nat.ne_of_lt (hInv.idsLt X hX)
    have := hrow _ (clusteredOf_mem (List.mem_append.mpr (.inl hX)) hXne hXrep hXnear)
    exact this

/-- One successful submission: the store invariant is preserved, the
ledger only gains pairs for the fresh report or for old `UNVERIFIED`
reports, old reports survive (at most flipped to `VERIFIED`), old
verification rows survive, and every nearby report by another user gains
the submitter's verification row. -/
lemma reportDump_ok_spec {near : ℚ → ℚ → ℚ → ℚ → Bool} {sha256 : Str → Str}
    {inp : SubmitInput} {s : Store} {res : SubmitResult} {s' : Store}
    (hInv : Inv s) (h : reportDump near sha256 inp s = .ok (res, s')) :
    Inv s' ∧
    (∃ aex, s'.awards = s.awards ++ aex ∧ ∀ p ∈ aex, p.1 = s.nextId ∨
      ∃ r ∈ s.reports, r.id = p.1 ∧ r.status = .UNVERIFIED) ∧
    (∀ r ∈ s.reports, ∃ r' ∈ s'.reports, r'.id = r.id ∧
      (r' = r ∨ r' = { r with status := DumpStatus.VERIFIED })) ∧
    (∀ v ∈ s.verifications, v ∈ s'.verifications) ∧
    (∀ X ∈ s.reports, X.reporterId ≠ inp.reporterId →
      near inp.latitude inp.longitude X.latitude X.longitude = true →
      (⟨X.id, inp.reporterId⟩ : DumpVerification) ∈ s'.verifications) := by
  unfold reportDump at h
  by_cases h1 : !validInput inp
  · rw [if_pos h1] at h
    exact Except.noConfusion h
  rw [if_neg h1] at h
  by_cases h2 : !isValidBase64Image inp.photoBase64
  · rw [if_pos h2] at h
    exact Except.noConfusion h
  rw [if_neg h2] at h
  replace h : (if s.photoHashes.any (fun row =>
      row.hash == generatePhotoHash sha256 inp.photoBase64) then
      (.error .DuplicatePhoto : Except SubmitError (SubmitResult × Store))
    else
      match txBody near inp (generatePhotoHash sha256 inp.photoBase64) s with
      | .error e => .error e
      | .ok tsF =>
        .ok (⟨s.nextId, countVerifications s.nextId tsF.verifications,
          ((tsF.reports.find? (fun r => r.id == s.nextId)).map (·.status)) ==
            some DumpStatus.VERIFIED⟩,
          { photoHashes := s.photoHashes ++
              [⟨generatePhotoHash sha256 inp.photoBase64, inp.reporterId⟩],
            reports := tsF.reports,
            verifications := tsF.verifications,
            reputations := tsF.reputations,
            awards := tsF.awards,
            nextId := s.nextId + 1 })) = .ok (res, s') := h
  by_cases h3 : s.photoHashes.any (fun row =>
      row.hash == generatePhotoHash sha256 inp.photoBase64)
  · rw [if_pos h3] at h
    exact Except.noConfusion h
  rw [if_neg h3] at h
  split at h
  next e heq => exact Except.noConfusion h
  next tsF heq =>
    have hpair := Except.ok.inj h
    have hs' : s' =
        { photoHashes := s.photoHashes ++
            [⟨generatePhotoHash sha256 inp.photoBase64, inp.reporterId⟩],
          reports := tsF.reports,
          verifications := tsF.verifications,
          reputations := tsF.reputations,
          awards := tsF.awards,
          nextId := s.nextId + 1 } := (congrArg Prod.snd hpair).symm
    obtain ⟨hinvF, hidsF, ⟨aex, haex, haexp⟩, hmono, hverM, hrow⟩ :=
      txBody_ok_spec hInv heq
    subst hs'
    refine ⟨?_, ⟨aex, haex, haexp⟩, ?_, hverM, hrow⟩
    · refine ⟨hinvF.verNodup, ?_, ?_, hinvF.verHasReport, hinvF.selfVer,
        hinvF.statusCount, hinvF.awardsNodup, hinvF.awardVerified,
        hinvF.repNodup, hinvF.scoreEq, hinvF.awardHasRep⟩
      · show (tsF.reports.map (·.id)).Nodup
        rw [hidsF]
        refine List.Nodup.append hInv.idsNodup (List.nodup_singleton _) ?_
        intro i hi hi'
        rw [List.mem_singleton.mp hi'] at hi
        exact fresh_id_not_mem hInv hi
      · intro r hr
        show r.id < s.nextId + 1
        have hmem : r.id ∈ tsF.reports.map (·.id) := List.mem_map_of_mem (·.id) hr
        rw [hidsF] at hmem
        rcases List.mem_append.mp hmem with hm | hm
        · obtain ⟨r0, hr0, hr0id⟩ := List.mem_map.mp hm
          exact hr0id ▸ Nat.lt_succ_of_lt (hInv.idsLt r0 hr0)
        · rw [List.mem_singleton.mp hm]
          exact Nat.lt_succ_self _
    · exact hmono

/-- A failed submission leaves the store unchanged. -/
lemma submitStep_error {near : ℚ → ℚ → ℚ → ℚ → Bool} {sha256 : Str → Str}
    {inp : SubmitInput} {s : Store} {e : SubmitError}
    (h : reportDump near sha256 inp s = .error e) :
    submitStep near sha256 s inp = s := by
  unfold submitStep
  rw [h]

lemma submitStep_inv {near : ℚ → ℚ → ℚ → ℚ → Bool} {sha256 : Str → Str}
    {s : Store} (inp : SubmitInput) (hInv : Inv s) :
    Inv (submitStep near sha256 s inp) := by
  unfold submitStep
  cases hr : reportDump near sha256 inp s with
  | error e => exact hInv
  | ok p =>
    cases p with
    | mk res s' => exact (reportDump_ok_spec hInv hr).1

lemma emptyStore_inv : Inv emptyStore := by
  refine ⟨?_, ?_, ?_, ?_, ?_, ?_, ?_, ?_, ?_, ?_, ?_⟩ <;> simp [emptyStore]

/-- The store invariant holds after any sequence of submissions. -/
lemma runSubmits_inv (near : ℚ → ℚ → ℚ → ℚ → Bool) (sha256 : Str → Str)
    (inps : List SubmitInput) : Inv (runSubmits near sha256 inps) := by
  unfold runSubmits
  have hgen : ∀ s : Store, Inv s → Inv (inps.foldl (submitStep near sha256) s) := by
    induction inps with
    | nil => exact fun s hs => hs
    | cons inp rest ih =>
      intro s hs
      exact ih _ (submitStep_inv inp hs)
  exact hgen emptyStore emptyStore_inv

/-! ## Geometry lemmas -/

lemma arctan_le_self {x : ℝ} (hx : 0 ≤ x) : Real.arctan x ≤ x := by
  rcases eq_or_lt_of_le hx with he | hlt
  · rw [← he, Real.arctan_zero]
  · have h1 : 0 < Real.arctan x := by
      have := Real.arctan_strictMono hlt
      rwa [Real.arctan_zero] at this
    have h2 := Real.arctan_lt_pi_div_two x
    have h3 := Real.lt_tan h1 h2
    rw [Real.tan_arctan] at h3
    exact le_of_lt h3

/-- The two scenario coordinates are within the configured 100 m radius:
the haversine distance between (3.8481, 11.5022) and (3.8480, 11.5021)
is (far) below 100 m. -/
lemma scenario_within_radius :
    isWithinRadius 3.8481 11.5022 3.8480 11.5021 GEO_CLUSTER_RADIUS := by
  have hpi4 : Real.pi ≤ 4 := Real.pi_le_four
  have hpi0 : 0 < Real.pi := Real.pi_pos
  show calculateDistance 3.8481 11.5022 3.8480 11.5021 ≤ GEO_CLUSTER_RADIUS
  unfold calculateDistance GEO_CLUSTER_RADIUS
  set A := haversineA 3.8481 11.5022 3.8480 11.5021 with hA
  have hAle : A ≤ ((1:ℝ)/600000)^2 := by
    rw [hA]
    unfold haversineA
    have hlat : Real.sin ((3.8480 - 3.8481) * Real.pi / 180 / 2) *
        Real.sin ((3.8480 - 3.8481) * Real.pi / 180 / 2) ≤ ((1:ℝ)/900000)^2 := by
      have hsq : Real.sin ((3.8480 - 3.8481) * Real.pi / 180 / 2) ^ 2 ≤
          ((3.8480 - 3.8481) * Real.pi / 180 / 2) ^ 2 := Real.sin_sq_le_sq
      have hb : ((3.8480 - 3.8481) * Real.pi / 180 / 2) ^ 2 ≤ ((1:ℝ)/900000)^2 := by
        refine sq_le_sq' ?_ ?_ <;> nlinarith [hpi4, hpi0]
      calc Real.sin ((3.8480 - 3.8481) * Real.pi / 180 / 2) *
            Real.sin ((3.8480 - 3.8481) * Real.pi / 180 / 2)
          = Real.sin ((3.8480 - 3.8481) * Real.pi / 180 / 2) ^ 2 := (sq _).symm
        _ ≤ ((3.8480 - 3.8481) * Real.pi / 180 / 2) ^ 2 := hsq
        _ ≤ _ := hb
    have hlon : Real.cos (3.8481 * Real.pi / 180) * Real.cos (3.8480 * Real.pi / 180) *
        (Real.sin ((11.5021 - 11.5022) * Real.pi / 180 / 2) *
          Real.sin ((11.5021 - 11.5022) * Real.pi / 180 / 2)) ≤ ((1:ℝ)/900000)^2 := by
      have hcos : Real.cos (3.8481 * Real.pi / 180) * Real.cos (3.8480 * Real.pi / 180) ≤ 1 := by
        calc Real.cos (3.8481 * Real.pi / 180) * Real.cos (3.8480 * Real.pi / 180)
            ≤ |Real.cos (3.8481 * Real.pi / 180) * Real.cos (3.8480 * Real.pi / 180)| :=
              le_abs_self _
          _ = |Real.cos (3.8481 * Real.pi / 180)| * |Real.cos (3.8480 * Real.pi / 180)| :=
              abs_mul _ _
          _ ≤ 1 := mul_le_one₀ (Real.abs_cos_le_one _) (abs_nonneg _) (Real.abs_cos_le_one _)
      have hsin : Real.sin ((11.5021 - 11.5022) * Real.pi / 180 / 2) *
          Real.sin ((11.5021 - 11.5022) * Real.pi / 180 / 2) ≤ ((1:ℝ)/900000)^2 := by
        have hsq : Real.sin ((11.5021 - 11.5022) * Real.pi / 180 / 2) ^ 2 ≤
            ((11.5021 - 11.5022) * Real.pi / 180 / 2) ^ 2 := Real.sin_sq_le_sq
        have hb : ((11.5021 - 11.5022) * Real.pi / 180 / 2) ^ 2 ≤ ((1:ℝ)/900000)^2 := by
          refine sq_le_sq' ?_ ?_ <;> nlinarith [hpi4, hpi0]
        calc Real.sin ((11.5021 - 11.5022) * Real.pi / 180 / 2) *
              Real.sin ((11.5021 - 11.5022) * Real.pi / 180 / 2)
            = Real.sin ((11.5021 - 11.5022) * Real.pi / 180 / 2) ^ 2 := (sq _).symm
          _ ≤ ((11.5021 - 11.5022) * Real.pi / 180 / 2) ^ 2 := hsq
          _ ≤ _ := hb
      calc Real.cos (3.8481 * Real.pi / 180) * Real.cos (3.8480 * Real.pi / 180) *
            (Real.sin ((11.5021 - 11.5022) * Real.pi / 180 / 2) *
              Real.sin ((11.5021 - 11.5022) * Real.pi / 180 / 2))
          ≤ 1 * (Real.sin ((11.5021 - 11.5022) * Real.pi / 180 / 2) *
              Real.sin ((11.5021 - 11.5022) * Real.pi / 180 / 2)) := by
            refine mul_le_mul_of_nonneg_right hcos (mul_self_nonneg _)
        _ = Real.sin ((11.5021 - 11.5022) * Real.pi / 180 / 2) *
              Real.sin ((11.5021 - 11.5022) * Real.pi / 180 / 2) := one_mul _
        _ ≤ _ := hsin
    calc Real.sin ((3.8480 - 3.8481) * Real.pi / 180 / 2) *
          Real.sin ((3.8480 - 3.8481) * Real.pi / 180 / 2) +
          Real.cos (3.8481 * Real.pi / 180) * Real.cos (3.8480 * Real.pi / 180) *
          (Real.sin ((11.5021 - 11.5022) * Real.pi / 180 / 2) *
            Real.sin ((11.5021 - 11.5022) * Real.pi / 180 / 2))
        ≤ ((1:ℝ)/900000)^2 + ((1:ℝ)/900000)^2 := add_le_add hlat hlon
      _ ≤ ((1:ℝ)/600000)^2 := by norm_num
  have hsA : Real.sqrt A ≤ (1:ℝ)/600000 := by
    calc Real.sqrt A ≤ Real.sqrt (((1:ℝ)/600000)^2) := Real.sqrt_le_sqrt hAle
      _ = (1:ℝ)/600000 := Real.sqrt_sq (by norm_num)
  have hs1A : (1:ℝ)/2 ≤ Real.sqrt (1 - A) := by
    have h14 : ((1:ℝ)/2)^2 ≤ 1 - A := by nlinarith [hAle]
    exact (Real.le_sqrt' (by norm_num)).mpr h14
  have h0x : 0 < Real.sqrt (1 - A) := lt_of_lt_of_le (by norm_num) hs1A
  unfold atan2
  rw [if_pos h0x]
  have hdiv0 : 0 ≤ Real.sqrt A / Real.sqrt (1 - A) :=
    div_nonneg (Real.sqrt_nonneg _) (Real.sqrt_nonneg _)
  have hdiv : Real.sqrt A / Real.sqrt (1 - A) ≤ ((1:ℝ)/600000) / ((1:ℝ)/2) :=
    div_le_div₀ (by norm_num) hsA (by norm_num) hs1A
  have harc : Real.arctan (Real.sqrt A / Real.sqrt (1 - A)) ≤ ((1:ℝ)/600000) / ((1:ℝ)/2) :=
    (arctan_le_self hdiv0).trans hdiv
  nlinarith [harc, Real.arctan_lt_pi_div_two (Real.sqrt A / Real.sqrt (1 - A)),
    Real.neg_pi_div_two_lt_arctan (Real.sqrt A / Real.sqrt (1 - A))]

/-! ## Claim theorems -/

/-- C8: for all coordinate pairs with latitude in [-90, 90] and longitude
in [-180, 180], `calculateDistance` is symmetric — `distance(a, b)`
equals `distance(b, a)` — and `distance(a, a)` equals 0. -/
theorem C8_distance_symm_and_self_zero (lat1 lon1 lat2 lon2 : ℝ)
    (_h1 : -90 ≤ lat1 ∧ lat1 ≤ 90) (_h2 : -180 ≤ lon1 ∧ lon1 ≤ 180)
    (_h3 : -90 ≤ lat2 ∧ lat2 ≤ 90) (_h4 : -180 ≤ lon2 ∧ lon2 ≤ 180) :
    calculateDistance lat1 lon1 lat2 lon2 = calculateDistance lat2 lon2 lat1 lon1 ∧
    calculateDistance lat1 lon1 lat1 lon1 = 0 := by
  constructor
  · unfold calculateDistance
    have hsymA : haversineA lat1 lon1 lat2 lon2 = haversineA lat2 lon2 lat1 lon1 := by
      unfold haversineA
      have e1 : (lat1 - lat2) * Real.pi / 180 / 2 =
          -((lat2 - lat1) * Real.pi / 180 / 2) := by ring
      have e2 : (lon1 - lon2) * Real.pi / 180 / 2 =
          -((lon2 - lon1) * Real.pi / 180 / 2) := by ring
      rw [e1, e2, Real.sin_neg, Real.sin_neg]
      ring
    rw [hsymA]
  · unfold calculateDistance
    have hA0 : haversineA lat1 lon1 lat1 lon1 = 0 := by
      unfold haversineA
      simp
    rw [hA0]
    have hzero : atan2 (Real.sqrt 0) (Real.sqrt (1 - 0)) = 0 := by
      have hx : (0:ℝ) < Real.sqrt (1 - 0) := by
        rw [show (1:ℝ) - 0 = 1 by ring, Real.sqrt_one]
        norm_num
      unfold atan2
      rw [if_pos hx, Real.sqrt_zero, zero_div, Real.arctan_zero]
    rw [hzero]
    ring

/-- Witness for C8 at the concrete points (0, 0) and (1, 1). -/
theorem C8_witness :
    calculateDistance 0 0 1 1 = calculateDistance 1 1 0 0 ∧
    calculateDistance 0 0 0 0 = 0 :=
  C8_distance_symm_and_self_zero 0 0 1 1 (by norm_num) (by norm_num)
    (by norm_num) (by norm_num)

/-- C1: for every sequence of `submitReport` calls, the award ledger —
one entry per `reputationScore.upsert` performed in a threshold block,
keyed by the (report, verifier) pair it credits — never holds a pair
twice, and every reputation row's score is exactly
`REPUTATION_PER_VERIFIED` times the number of ledger entries for that
user.  Hence the `REPUTATION_PER_VERIFIED`-point award attributable to a
(report, verifier) pair is applied at most once to the verifier's
`ReputationScore`.  (The verification table's uniqueness constraint on
the pair, modelled from §6 of the spec since the Prisma schema is not in
the sources, rules out a verifier list containing the same user twice.) -/
theorem C1_award_at_most_once_per_pair (near : ℚ → ℚ → ℚ → ℚ → Bool)
    (sha256 : Str → Str) (inps : List SubmitInput) :
    (runSubmits near sha256 inps).awards.Nodup ∧
    ∀ rep ∈ (runSubmits near sha256 inps).reputations,
      rep.score = REPUTATION_PER_VERIFIED *
        (awardsTo rep.userId (runSubmits near sha256 inps).awards).length :=
  ⟨(runSubmits_inv near sha256 inps).awardsNodup,
   fun rep hrep => ((runSubmits_inv near sha256 inps).scoreEq rep hrep).1⟩

/-- Witness for C1 on the two-report scenario trace: user A's reputation
row tallies the ledger. -/
theorem C1_witness :
    (runSubmits nearAll digestId [subA, subB]).awards.Nodup ∧
    ((⟨1, 20, 2⟩ : ReputationScore) ∈
      (runSubmits nearAll digestId [subA, subB]).reputations ∧
     (20 : ℕ) = REPUTATION_PER_VERIFIED *
      (awardsTo 1 (runSubmits nearAll digestId [subA, subB]).awards).length) := by
  refine ⟨(C1_award_at_most_once_per_pair nearAll digestId [subA, subB]).1, ?_, ?_⟩
  · decide
  · exact (C1_award_at_most_once_per_pair nearAll digestId [subA, subB]).2
      ⟨1, 20, 2⟩ (by decide)

/-- C4: after any sequence of `submitReport` calls the verification table
holds no duplicate (report, verifier) pair, and each report's row count
equals the number of distinct users with a verification row for it.
(The no-duplicate half rests on the pair-uniqueness constraint modelled
from §6 of the spec: the schema is not in the sources, and a duplicate
`create` aborts the submission instead of inserting.) -/
theorem C4_no_duplicate_pairs_count_distinct (near : ℚ → ℚ → ℚ → ℚ → Bool)
    (sha256 : Str → Str) (inps : List SubmitInput) :
    (runSubmits near sha256 inps).verifications.Nodup ∧
    ∀ r ∈ (runSubmits near sha256 inps).reports,
      countVerifications r.id (runSubmits near sha256 inps).verifications =
        (verifiersOf r.id (runSubmits near sha256 inps).verifications).dedup.length := by
  have hInv := runSubmits_inv near sha256 inps
  refine ⟨hInv.verNodup, ?_⟩
  intro r hr
  have hnd := verifiersOf_nodup r.id _ hInv.verNodup
  rw [List.dedup_eq_self.mpr hnd]
  unfold countVerifications verifiersOf
  rw [List.length_map]

/-- Witness for C4 on a one-submission trace. -/
theorem C4_witness :
    (runSubmits nearAll digestId [subA]).verifications.Nodup ∧
    countVerifications 0 (runSubmits nearAll digestId [subA]).verifications =
      (verifiersOf 0 (runSubmits nearAll digestId [subA]).verifications).dedup.length := by
  have h := C4_no_duplicate_pairs_count_distinct nearAll digestId [subA]
  refine ⟨h.1, ?_⟩
  have hm : (⟨0, 1, 3.8480, 11.5021, photoOf 'a', DumpSize.SMALL,
      DumpStatus.UNVERIFIED⟩ : DumpReport) ∈
      (runSubmits nearAll digestId [subA]).reports := by decide
  exact h.2 _ hm

/-- C5: after any sequence of `submitReport` calls, a report's status is
`VERIFIED` exactly when its (duplicate-free) verification-row count is at
least 2 — so across the submission-by-submission history the status
changes from `UNVERIFIED` to `VERIFIED` exactly at the submission whose
commit first brings the distinct-verifier count to 2 — and one further
submission never takes a `VERIFIED` report back: the report survives
with the same id and stays `VERIFIED`. -/
theorem C5_flip_exactly_at_two (near : ℚ → ℚ → ℚ → ℚ → Bool) (sha256 : Str → Str)
    (inps : List SubmitInput) (inp : SubmitInput) :
    (∀ r ∈ (runSubmits near sha256 inps).reports,
      (r.status = DumpStatus.VERIFIED ↔
        2 ≤ countVerifications r.id (runSubmits near sha256 inps).verifications)) ∧
    (∀ r ∈ (runSubmits near sha256 inps).reports, r.status = DumpStatus.VERIFIED →
      ∃ r' ∈ (submitStep near sha256 (runSubmits near sha256 inps) inp).reports,
        r'.id = r.id ∧ r'.status = DumpStatus.VERIFIED) := by
  have hInv := runSubmits_inv near sha256 inps
  refine ⟨hInv.statusCount, ?_⟩
  intro r hr hv
  unfold submitStep
  cases hrd : reportDump near sha256 inp (runSubmits near sha256 inps) with
  | error e => exact ⟨r, hr, rfl, hv⟩
  | ok p =>
    cases p with
    | mk res s' =>
      obtain ⟨_, _, hmono, _, _⟩ := reportDump_ok_spec hInv hrd
      obtain ⟨r', hr', hid, hcase⟩ := hmono r hr
      refine ⟨r', hr', hid, ?_⟩
      rcases hcase with he | he
      · rw [he]
        exact hv
      · rw [he]

/-- Witness for C5 on the two-report scenario trace, with a third
submission afterwards. -/
theorem C5_witness :
    ((⟨0, 1, 3.8480, 11.5021, photoOf 'a', DumpSize.SMALL,
        DumpStatus.VERIFIED⟩ : DumpReport).status = DumpStatus.VERIFIED ↔
      2 ≤ countVerifications 0 (runSubmits nearAll digestId [subA, subB]).verifications) ∧
    (∃ r' ∈ (submitStep nearAll digestId
        (runSubmits nearAll digestId [subA, subB]) subC).reports,
      r'.id = 0 ∧ r'.status = DumpStatus.VERIFIED) := by
  have h := C5_flip_exactly_at_two nearAll digestId [subA, subB] subC
  have hm : (⟨0, 1, 3.8480, 11.5021, photoOf 'a', DumpSize.SMALL,
      DumpStatus.VERIFIED⟩ : DumpReport) ∈
      (runSubmits nearAll digestId [subA, subB]).reports := by decide
  exact ⟨h.1 _ hm, h.2 _ hm rfl⟩

/-- The duplicate-photo branch: a validly-formed submission whose
fingerprint is already registered is rejected before the transaction. -/
lemma reportDump_duplicate {near : ℚ → ℚ → ℚ → ℚ → Bool} {sha256 : Str → Str}
    {inp : SubmitInput} {s : Store}
    (hval : validInput inp = true)
    (hphoto : isValidBase64Image inp.photoBase64 = true)
    (hdup : s.photoHashes.any (fun row =>
      row.hash == generatePhotoHash sha256 inp.photoBase64) = true) :
    reportDump near sha256 inp s = .error .DuplicatePhoto := by
  simp [reportDump, hval, hphoto, hdup]

/-- C6: a submission that passes payload validation but whose photo
fingerprints to an already-registered hash fails with `DuplicatePhoto`,
and the store is unchanged — no report, verification, fingerprint or
reputation row is created by that submission. -/
theorem C6_duplicate_photo_rejected (near : ℚ → ℚ → ℚ → ℚ → Bool)
    (sha256 : Str → Str) (inp : SubmitInput) (s : Store)
    (hval : validInput inp = true)
    (hphoto : isValidBase64Image inp.photoBase64 = true)
    (hdup : s.photoHashes.any (fun row =>
      row.hash == generatePhotoHash sha256 inp.photoBase64) = true) :
    reportDump near sha256 inp s = .error .DuplicatePhoto ∧
    submitStep near sha256 s inp = s :=
  ⟨reportDump_duplicate hval hphoto hdup,
   submitStep_error (reportDump_duplicate hval hphoto hdup)⟩

/-- Witness for C6: resubmitting A's exact photo bytes is rejected and
the store is untouched. -/
theorem C6_witness :
    reportDump nearAll digestId ⟨5, 0, 0, photoOf 'a', DumpSize.LARGE⟩
      (runSubmits nearAll digestId [subA]) = .error .DuplicatePhoto ∧
    submitStep nearAll digestId (runSubmits nearAll digestId [subA])
      ⟨5, 0, 0, photoOf 'a', DumpSize.LARGE⟩ = runSubmits nearAll digestId [subA] :=
  C6_duplicate_photo_rejected nearAll digestId _ _ (by decide) (by decide) (by decide)

/-- C3 counterexample: user B submits two reports at the same spot with
different photos; user C then submits nearby.  The cascade tries to
create the symmetric back-link `(C's report, B)` twice; the second
creation hits the (spec-modelled, §6) uniqueness constraint and the whole
submission fails with a store error and rolls back — it is not silently
ignored. -/
theorem C3_cex_duplicate_backlink_aborts :
    reportDump nearAll digestId subC2 (runSubmits nearAll digestId [subB1, subB2]) =
      .error .UniqueViolation ∧
    submitStep nearAll digestId (runSubmits nearAll digestId [subB1, subB2]) subC2 =
      runSubmits nearAll digestId [subB1, subB2] := by
  constructor
  · rfl
  · decide

/-- C3 amended: recording an already-present (report, verifier) pair is
silently ignored as a no-op only in the nearby-report loop (step 5a),
which consults the snapshot's verifier list; the symmetric back-link
(step 5c) is created with no duplicate check, and a duplicate back-link
pair aborts the submission with a store error. -/
theorem C3_amended_dedupe_only_in_first_loop :
    (∀ (reporterId : UserId) (n : NearbySnapshot) (ts : TxState),
      n.verifications.any (fun v => v.verifierId == reporterId) = true →
      processNearby reporterId n ts = .ok ts) ∧
    (∀ (rid : ReportId) (n : NearbySnapshot) (rest : List NearbySnapshot)
      (vs : List DumpVerification),
      (⟨rid, n.report.reporterId⟩ : DumpVerification) ∈ vs →
      createBackLinks rid (n :: rest) vs = .error .UniqueViolation) := by
  constructor
  · intro reporterId n ts h
    simp [processNearby, h]
  · intro rid n rest vs hmem
    unfold createBackLinks
    rw [createVerification_error_of_mem hmem]
    rfl

/-- Witness for the amended C3 at concrete inputs. -/
theorem C3_witness :
    processNearby 7
      ⟨⟨0, 2, 0, 0, [], DumpSize.SMALL, DumpStatus.UNVERIFIED⟩, [⟨0, 7⟩]⟩
      ⟨[], [], [], []⟩ = .ok ⟨[], [], [], []⟩ ∧
    createBackLinks 5 [⟨⟨0, 2, 0, 0, [], DumpSize.SMALL, DumpStatus.UNVERIFIED⟩, []⟩]
      [⟨5, 2⟩] = .error .UniqueViolation :=
  ⟨C3_amended_dedupe_only_in_first_loop.1 7 _ _ (by decide),
   C3_amended_dedupe_only_in_first_loop.2 5 _ [] _ (by decide)⟩

/-- C9: a submission makes no award-ledger entry for any report that was
already `VERIFIED` before it (awards for a report are made only in the
submission in which that report flips from `UNVERIFIED` to `VERIFIED`),
while — when the submission succeeds — a nearby already-`VERIFIED`
report by another user still gains the submitter's verification row. -/
theorem C9_late_corroborator_row_but_no_award (near : ℚ → ℚ → ℚ → ℚ → Bool)
    (sha256 : Str → Str) (inps : List SubmitInput) (inp : SubmitInput) :
    (∀ X ∈ (runSubmits near sha256 inps).reports, X.status = DumpStatus.VERIFIED →
      awardsFor X.id (submitStep near sha256 (runSubmits near sha256 inps) inp) =
        awardsFor X.id (runSubmits near sha256 inps)) ∧
    (∀ res s', reportDump near sha256 inp (runSubmits near sha256 inps) = .ok (res, s') →
      ∀ X ∈ (runSubmits near sha256 inps).reports, X.status = DumpStatus.VERIFIED →
        X.reporterId ≠ inp.reporterId →
        near inp.latitude inp.longitude X.latitude X.longitude = true →
        (⟨X.id, inp.reporterId⟩ : DumpVerification) ∈ s'.verifications) := by
  have hInv := runSubmits_inv near sha256 inps
  constructor
  · intro X hX hXv
    unfold submitStep
    cases hrd : reportDump near sha256 inp (runSubmits near sha256 inps) with
    | error e => rfl
    | ok p =>
      cases p with
      | mk res s' =>
        obtain ⟨_, ⟨aex, haex, haexp⟩, _, _, _⟩ := reportDump_ok_spec hInv hrd
        show awardsFor X.id s' = _
        unfold awardsFor
        rw [haex, List.filter_append]
        have hnil : aex.filter (fun p => p.1 == X.id) = [] := by
          rw [List.filter_eq_nil_iff]
          intro p hp
          simp only [beq_iff_eq]
          intro hpx
          rcases haexp p hp with h1 | ⟨r, hr, h1, h2⟩
          · rw [hpx] at h1
            exact absurd h1 (Nat.ne_of_lt (hInv.idsLt X hX))
          · have hrX : r = X := report_id_inj hInv.idsNodup hr hX (by rw [h1, hpx])
            rw [hrX, hXv] at h2
            exact DumpStatus.noConfusion h2
        rw [hnil, List.append_nil]
  · intro res s' hok X hX _ hXrep hXnear
    obtain ⟨_, _, _, _, hrow⟩ := reportDump_ok_spec hInv hok
    exact hrow X hX hXrep hXnear

/-- Witness for C9: after the two-report scenario, C's submission near
the VERIFIED report 0 adds C's row for it but no ledger entry for it. -/
theorem C9_witness :
    awardsFor 0 (submitStep nearAll digestId
        (runSubmits nearAll digestId [subA, subB]) subC) =
      awardsFor 0 (runSubmits nearAll digestId [subA, subB]) ∧
    (⟨0, 3⟩ : DumpVerification) ∈ (submitStep nearAll digestId
        (runSubmits nearAll digestId [subA, subB]) subC).verifications := by
  have h := C9_late_corroborator_row_but_no_award nearAll digestId [subA, subB] subC
  have hm : (⟨0, 1, 3.8480, 11.5021, photoOf 'a', DumpSize.SMALL,
      DumpStatus.VERIFIED⟩ : DumpReport) ∈
      (runSubmits nearAll digestId [subA, subB]).reports := by decide
  refine ⟨h.1 _ hm rfl, ?_⟩
  cases hrd : reportDump nearAll digestId subC (runSubmits nearAll digestId [subA, subB]) with
  | error e =>
    have hne : (match reportDump nearAll digestId subC
        (runSubmits nearAll digestId [subA, subB]) with
      | .ok _ => true
      | .error _ => false) = true := by decide
    rw [hrd] at hne
    exact Bool.noConfusion hne
  | ok p =>
    cases p with
    | mk res s' =>
      have hmem := h.2 res s' hrd _ hm rfl (by decide) rfl
      show (⟨0, 3⟩ : DumpVerification) ∈ (submitStep nearAll digestId
        (runSubmits nearAll digestId [subA, subB]) subC).verifications
      unfold submitStep
      rw [hrd]
      exact hmem

/-- A payload without the data-URL lead-in is left unchanged by the
strip. -/
lemma strip_of_no_prefix {b : Str} (hb : dataImagePrefix.isPrefixOf b = false) :
    stripDataUrlPrefix b = b := by
  simp [stripDataUrlPrefix, hb]

/-- A well-formed data-URL preamble strips away completely. -/
lemma strip_dataUrl {t b : Str} (ht1 : t ≠ [])
    (ht2 : ∀ c ∈ t, isWordChar c = true) :
    stripDataUrlPrefix (dataImagePrefix ++ t ++ base64Marker ++ b) = b := by
  have hassoc : dataImagePrefix ++ t ++ base64Marker ++ b =
      dataImagePrefix ++ (t ++ (base64Marker ++ b)) := by
    simp [List.append_assoc]
  rw [hassoc]
  unfold stripDataUrlPrefix
  have hpre : dataImagePrefix.isPrefixOf
      (dataImagePrefix ++ (t ++ (base64Marker ++ b))) = true := by
    rw [List.isPrefixOf_iff_prefix]
    exact List.prefix_append _ _
  rw [if_pos hpre]
  have hdrop : (dataImagePrefix ++ (t ++ (base64Marker ++ b))).drop 11 =
      t ++ (base64Marker ++ b) :=
    List.drop_left' (by decide)
  rw [hdrop]
  have htw : (t ++ (base64Marker ++ b)).takeWhile isWordChar = t := by
    rw [List.takeWhile_append_of_pos ht2]
    have hm : (base64Marker ++ b).takeWhile isWordChar = [] := by
      show ((';' :: "base64,".data) ++ b).takeWhile isWordChar = []
      rw [List.cons_append, List.takeWhile_cons]
      simp [isWordChar]
    rw [hm, List.append_nil]
  rw [htw]
  have hdrop2 : (t ++ (base64Marker ++ b)).drop t.length = base64Marker ++ b :=
    List.drop_left _ _
  rw [hdrop2]
  have hne : t.isEmpty = false := by
    cases t with
    | nil => exact absurd rfl ht1
    | cons c l => rfl
  have hpre2 : base64Marker.isPrefixOf (base64Marker ++ b) = true := by
    rw [List.isPrefixOf_iff_prefix]
    exact List.prefix_append _ _
  rw [hne, hpre2]
  show List.drop 8 (base64Marker ++ b) = b
  exact List.drop_left' (by decide)

/-- C10: the photo fingerprint is the digest of the payload after
stripping a leading `data:image/<type>;base64,` preamble, so a bare
payload and its data-URL wrapping produce the same fingerprint, and once
one of them is registered a (valid) submission of the other fails with
`DuplicatePhoto`. -/
theorem C10_digest_strips_preamble (sha256 : Str → Str) (t b : Str)
    (ht1 : t ≠ []) (ht2 : ∀ c ∈ t, isWordChar c = true)
    (hb : dataImagePrefix.isPrefixOf b = false) :
    generatePhotoHash sha256 (dataImagePrefix ++ t ++ base64Marker ++ b) =
      generatePhotoHash sha256 b ∧
    (∀ (near : ℚ → ℚ → ℚ → ℚ → Bool) (s : Store) (inp : SubmitInput),
      inp.photoBase64 = dataImagePrefix ++ t ++ base64Marker ++ b →
      validInput inp = true →
      isValidBase64Image inp.photoBase64 = true →
      s.photoHashes.any (fun row => row.hash == generatePhotoHash sha256 b) = true →
      reportDump near sha256 inp s = .error .DuplicatePhoto) := by
  have hmain : generatePhotoHash sha256 (dataImagePrefix ++ t ++ base64Marker ++ b) =
      generatePhotoHash sha256 b := by
    unfold generatePhotoHash
    rw [strip_dataUrl ht1 ht2, strip_of_no_prefix hb]
  refine ⟨hmain, ?_⟩
  intro near s inp hphoto hval hvalid hdup
  refine reportDump_duplicate hval hvalid ?_
  rw [hphoto, hmain]
  exact hdup

/-- Witness for C10: A's bare photo is registered; the same payload
wrapped as `data:image/png;base64,…` fingerprints identically and is
rejected. -/
theorem C10_witness :
    generatePhotoHash digestId
        (dataImagePrefix ++ "png".data ++ base64Marker ++ photoOf 'a') =
      generatePhotoHash digestId (photoOf 'a') ∧
    reportDump nearAll digestId
      ⟨9, 0, 0, dataImagePrefix ++ "png".data ++ base64Marker ++ photoOf 'a',
        DumpSize.SMALL⟩
      (runSubmits nearAll digestId [subA]) = .error .DuplicatePhoto := by
  have h := C10_digest_strips_preamble digestId "png".data (photoOf 'a')
    (by decide) (by decide) (by decide)
  exact ⟨h.1, h.2 nearAll _ _ rfl (by decide) (by decide) (by decide)⟩

/-- Evaluation shape of a successful `reportDump`: validation and the
fingerprint check pass, and the transaction body returns `tsF`. -/
lemma reportDump_eval {near : ℚ → ℚ → ℚ → ℚ → Bool} {sha256 : Str → Str}
    {inp : SubmitInput} {s : Store} {tsF : TxState}
    (hval : validInput inp = true)
    (hphoto : isValidBase64Image inp.photoBase64 = true)
    (hdup : s.photoHashes.any (fun row =>
      row.hash == generatePhotoHash sha256 inp.photoBase64) = false)
    (htx : txBody near inp (generatePhotoHash sha256 inp.photoBase64) s = .ok tsF) :
    reportDump near sha256 inp s = .ok
      (⟨s.nextId, countVerifications s.nextId tsF.verifications,
        ((tsF.reports.find? (fun r => r.id == s.nextId)).map (·.status)) ==
          some DumpStatus.VERIFIED⟩,
       ⟨s.photoHashes ++ [⟨generatePhotoHash sha256 inp.photoBase64, inp.reporterId⟩],
        tsF.reports, tsF.verifications, tsF.reputations, tsF.awards, s.nextId + 1⟩) := by
  unfold reportDump
  rw [hval, hphoto]
  simp only [Bool.not_true, Bool.false_eq_true, if_false]
  rw [hdup]
  simp only [Bool.false_eq_true, if_false]
  rw [htx]

/-- C2 counterexample: run the exact two-report scenario of the claim
(the cluster test at the one coordinate pair the code consults is
justified by `scenario_within_radius`).  A's submission does return
UNVERIFIED with one verification, and both reports do end VERIFIED — but
A and B each end with a score of 20 from two +10 awards (one per report
each verified), not "exactly one reputation award of +10 in total". -/
theorem C2_cex_double_award :
    isWithinRadius 3.8481 11.5022 3.8480 11.5021 GEO_CLUSTER_RADIUS ∧
    countVerifications 0 (runSubmits nearAll digestId [subA]).verifications = 1 ∧
    (runSubmits nearAll digestId [subA]).reports.map (·.status) =
      [DumpStatus.UNVERIFIED] ∧
    (runSubmits nearAll digestId [subA, subB]).reports.map (·.status) =
      [DumpStatus.VERIFIED, DumpStatus.VERIFIED] ∧
    scoreOf 1 (runSubmits nearAll digestId [subA, subB]) = 20 ∧
    scoreOf 2 (runSubmits nearAll digestId [subA, subB]) = 20 ∧
    (awardsTo 1 (runSubmits nearAll digestId [subA, subB]).awards).length = 2 ∧
    (awardsTo 2 (runSubmits nearAll digestId [subA, subB]).awards).length = 2 :=
  ⟨scenario_within_radius, by decide, by decide, by decide, by decide, by decide,
   by decide, by decide⟩

/-- C2 amended: in the two-report scenario, A's submission returns
UNVERIFIED with verificationCount 1; B's submission — its coordinates
within the 100 m default radius of A's, as the first conjunct certifies
for the haversine test the code runs — returns VERIFIED with
verificationCount 2, after which both reports are VERIFIED and A and B
have each received exactly two reputation awards of
+`REPUTATION_PER_VERIFIED` (one per report each of them verified, each
(report, verifier) pair awarded once), for a total of 20 points each. -/
theorem C2_amended_both_verified_two_awards_each (near : ℚ → ℚ → ℚ → ℚ → Bool)
    (hnear : near 3.8481 11.5022 3.8480 11.5021 = true) :
    isWithinRadius 3.8481 11.5022 3.8480 11.5021 GEO_CLUSTER_RADIUS ∧
    ∃ res1 s1 res2 s2,
      reportDump near digestId subA emptyStore = .ok (res1, s1) ∧
      res1.verificationCount = 1 ∧ res1.isVerified = false ∧
      reportDump near digestId subB s1 = .ok (res2, s2) ∧
      res2.verificationCount = 2 ∧ res2.isVerified = true ∧
      s2.reports.map (·.status) = [DumpStatus.VERIFIED, DumpStatus.VERIFIED] ∧
      scoreOf 1 s2 = 2 * REPUTATION_PER_VERIFIED ∧
      scoreOf 2 s2 = 2 * REPUTATION_PER_VERIFIED ∧
      (awardsTo 1 s2.awards).length = 2 ∧
      (awardsTo 2 s2.awards).length = 2 ∧
      s2.awards.Nodup := by
  refine ⟨scenario_within_radius, ?_⟩
  have h1 : reportDump near digestId subA emptyStore =
      .ok (⟨0, 1, false⟩, storeAfterA) := rfl
  have hcl : clusteredOf near subB 1 txAfterSelfB = [⟨reportA, [⟨0, 1⟩]⟩] := by
    show (List.filter (fun r => near 3.8481 11.5022 r.latitude r.longitude)
        [reportA]).map (fun r => NearbySnapshot.mk r
          ((([⟨0, 1⟩, ⟨1, 2⟩] : List DumpVerification)).filter
            (fun v => v.dumpReportId == r.id))) = [⟨reportA, [⟨0, 1⟩]⟩]
    have hpa : (fun r : DumpReport =>
        near 3.8481 11.5022 r.latitude r.longitude) reportA = true := hnear
    rw [@List.filter_cons_of_pos DumpReport
      (fun r : DumpReport => near 3.8481 11.5022 r.latitude r.longitude) reportA [] hpa]
    rfl
  have hmainB : txCluster near subB 1 txAfterSelfB = .ok txFinalB := by
    unfold txCluster
    rw [hcl]
    rfl
  have hbody : txBody near subB (generatePhotoHash digestId (photoOf 'b'))
      storeAfterA = .ok txFinalB := by
    show txCluster near subB 1 txAfterSelfB = .ok txFinalB
    exact hmainB
  have h2pre := reportDump_eval
    (show validInput subB = true from rfl)
    (show isValidBase64Image subB.photoBase64 = true from rfl)
    (show storeAfterA.photoHashes.any (fun row =>
      row.hash == generatePhotoHash digestId subB.photoBase64) = false from rfl)
    hbody
  have h2 : reportDump near digestId subB storeAfterA =
      .ok (⟨1, 2, true⟩, storeAfterB) := h2pre
  exact ⟨⟨0, 1, false⟩, storeAfterA, ⟨1, 2, true⟩, storeAfterB, h1, rfl, rfl, h2,
    rfl, rfl, by decide, by decide, by decide, by decide, by decide, by decide⟩

/-- Witness for the amended C2, at the haversine-faithful concrete
cluster test. -/
theorem C2_witness :
    nearAll 3.8481 11.5022 3.8480 11.5021 = true ∧
    (isWithinRadius 3.8481 11.5022 3.8480 11.5021 GEO_CLUSTER_RADIUS ∧
     ∃ res1 s1 res2 s2,
      reportDump nearAll digestId subA emptyStore = .ok (res1, s1) ∧
      res1.verificationCount = 1 ∧ res1.isVerified = false ∧
      reportDump nearAll digestId subB s1 = .ok (res2, s2) ∧
      res2.verificationCount = 2 ∧ res2.isVerified = true ∧
      s2.reports.map (·.status) = [DumpStatus.VERIFIED, DumpStatus.VERIFIED] ∧
      scoreOf 1 s2 = 2 * REPUTATION_PER_VERIFIED ∧
      scoreOf 2 s2 = 2 * REPUTATION_PER_VERIFIED ∧
      (awardsTo 1 s2.awards).length = 2 ∧
      (awardsTo 2 s2.awards).length = 2 ∧
      s2.awards.Nodup) :=
  ⟨rfl, C2_amended_both_verified_two_awards_each nearAll rfl⟩

end CityLink
